import Mathlib

/-!
Shallow embedding of the Truco game engine
(src/app/game-engine/{types,deck,game-engine}.ts and the configuration
resolver) together with proofs about its claims.

Modelling conventions:
* TypeScript numbers used as counters/scores/timestamps become `Nat`.
* `Math.random()`-driven shuffling is modelled by an explicit draw source
  `rng : Nat → Nat`; the Fisher–Yates index `Math.floor(Math.random()*(i+1))`
  (an arbitrary value in `[0, i]`) becomes `rng i % (i+1)`, which ranges over
  exactly the same values.  `processAction` takes `rng : Nat → Nat → Nat`
  because a single action can perform two independent shuffles
  (`startNewRound` shuffles once for `gameState.deck` and `dealCards`
  shuffles again internally).
* `generateId()` (a `Math.random()`-derived string) is modelled as the
  constant `""`: no behaviour in the engine ever reads these ids back.
* Thrown exceptions are modelled by an explicit error component: handlers
  return `GameState × List GameEvent × Option Exc`, where the returned state
  and events are those already produced when the exception was raised
  (TypeScript mutations performed before a `throw` persist, and events
  already emitted have been delivered).  `Exc.game` models a thrown
  `GameError`; `Exc.runtime` models any other runtime exception
  (e.g. a `TypeError` from reading a property of `undefined` or from
  `[].reduce` with no initial value).
* In TypeScript `gameState.currentRound` aliases the last element of
  `gameState.rounds`, and `round.currentTrick` aliases the last element of
  `round.tricks` (both are always the most recently pushed object and are
  never reassigned elsewhere).  The pure model mirrors every mutation of the
  current round/trick into that last list element.
-/

namespace Truco

/-! ## Data model (types.ts) -/

inductive Suit
  | hearts | diamonds | clubs | spades
deriving DecidableEq

inductive Rank
  | four | five | six | seven | queen | jack | king | ace | two | three
deriving DecidableEq

def suitStr : Suit → String
  | .hearts => "hearts" | .diamonds => "diamonds" | .clubs => "clubs" | .spades => "spades"

def rankStr : Rank → String
  | .four => "4" | .five => "5" | .six => "6" | .seven => "7" | .queen => "Q"
  | .jack => "J" | .king => "K" | .ace => "A" | .two => "2" | .three => "3"

structure Card where
  suit : Suit
  rank : Rank
  id : String
deriving DecidableEq

structure Player where
  id : String
  name : String
  hand : List Card
  score : Nat
  isReady : Bool
  isActive : Bool
deriving DecidableEq

structure Team where
  id : String
  name : String
  players : List Player
  score : Nat
deriving DecidableEq

inductive GamePhase
  | WAITING | DEALING | PLAYING | ROUND_END | GAME_END
deriving DecidableEq

inductive TrucoCall
  | NONE | TRUCO | RETRUCO | VALE_CUATRO
deriving DecidableEq

structure PlayedCard where
  card : Card
  playerId : String
  timestamp : Nat
deriving DecidableEq

structure Trick where
  id : String
  number : Nat
  cardsPlayed : List PlayedCard
  winner : Option String
  isComplete : Bool
deriving DecidableEq

structure Round where
  id : String
  number : Nat
  tricks : List Trick
  currentTrick : Option Trick
  trucoCall : TrucoCall
  trucoValue : Nat
  calledBy : Option String
  acceptedBy : Option String
deriving DecidableEq

structure GameState where
  id : String
  phase : GamePhase
  players : List Player
  teams : List Team
  deck : List Card
  currentRound : Option Round
  rounds : List Round
  currentPlayerIndex : Nat
  maxScore : Nat
  createdAt : Nat
  updatedAt : Nat
deriving DecidableEq

inductive DeckType
  | spanish | french
deriving DecidableEq

structure GameConfig where
  maxPlayers : Nat
  minPlayers : Nat
  maxScore : Nat
  useTeams : Bool
  deckType : DeckType
  handSize : Nat
deriving DecidableEq

inductive GameAction
  | JOIN_GAME | LEAVE_GAME | READY_PLAYER | START_GAME | DEAL_CARDS
  | PLAY_CARD | CALL_TRUCO | ACCEPT_TRUCO | REJECT_TRUCO | NEXT_ROUND | END_GAME
deriving DecidableEq

def actionTypeStr : GameAction → String
  | .JOIN_GAME => "join_game" | .LEAVE_GAME => "leave_game"
  | .READY_PLAYER => "ready_player" | .START_GAME => "start_game"
  | .DEAL_CARDS => "deal_cards" | .PLAY_CARD => "play_card"
  | .CALL_TRUCO => "call_truco" | .ACCEPT_TRUCO => "accept_truco"
  | .REJECT_TRUCO => "reject_truco" | .NEXT_ROUND => "next_round"
  | .END_GAME => "end_game"

/-- The `data?: any` field of an action payload.  `none` at the payload level
models a missing (`undefined`) `data`; inside present data, a `none` field
models reading an `undefined` property (e.g. `data.cardId` absent), which in
the engine only ever flows into lookups that then fail to match. -/
structure ActionData where
  name : String
  cardId : Option String
  call : Option TrucoCall
deriving DecidableEq

structure GameActionPayload where
  type : GameAction
  playerId : String
  data : Option ActionData
deriving DecidableEq

/-- A thrown `GameError` (types.ts): message, stable code, optional player. -/
structure GameErrorE where
  message : String
  code : String
  playerId : Option String
deriving DecidableEq

/-- An exception escaping a handler: either a `GameError` or any other
runtime exception (TypeError etc.), which the dispatcher reports as
code `UNKNOWN`. -/
inductive Exc
  | game (e : GameErrorE)
  | runtime
deriving DecidableEq

inductive EventPayload
  | playerJoined (player : Player)
  | playerLeft (playerId : String)
  | readyChanged (playerId : String) (isReady : Bool)
  | gameStarted
  | roundStarted (round : Round)
  | trickStarted (trick : Trick)
  | cardPlayed (playerId : String) (card : Card) (trick : Trick)
  | trickCompleted (trick : Trick) (winnerId : String)
  | roundCompleted (round : Round) (winnerId : Option String) (points : Nat)
  | turnChanged (currentPlayerId : Option String)
  | trucoCalled (playerId : String) (call : TrucoCall) (value : Nat)
  | trucoAccepted (playerId : String) (value : Nat)
  | trucoRejected (playerId : String)
  | gameEnded (winner : String) (finalScores : List (String × String × Nat))
      (reason : Option String)
  | gameError (message : String) (code : String)
deriving DecidableEq

structure GameEvent where
  type : String
  payload : EventPayload
  timestamp : Nat
  playerId : Option String
deriving DecidableEq

/-! ## Deck module (deck.ts) -/

def SPANISH_RANKS : List Rank :=
  [.four, .five, .six, .seven, .queen, .jack, .king, .ace, .two, .three]

/-- The source comment reads "French deck configuration (52 cards - all
ranks)" but the list below — a faithful transcription — contains only the
same ten ranks, so `createDeck .french` produces 40 cards, not 52. -/
def FRENCH_RANKS : List Rank :=
  [.two, .three, .four, .five, .six, .seven, .queen, .jack, .king, .ace]

def ALL_SUITS : List Suit := [.hearts, .diamonds, .clubs, .spades]

def createDeck (deckType : DeckType) : List Card :=
  let ranks := if deckType = .spanish then SPANISH_RANKS else FRENCH_RANKS
  ALL_SUITS.flatMap fun suit =>
    ranks.map fun rank => ⟨suit, rank, suitStr suit ++ "-" ++ rankStr rank⟩

/-- Swap the elements at positions `i` and `j` (the body of the Fisher–Yates
destructuring assignment); out-of-range indices leave the list unchanged
(never hit by `shuffleDeck`, whose indices are always in range). -/
def swapAt (l : List Card) (i j : Nat) : List Card :=
  match l[i]?, l[j]? with
  | some a, some b => (l.set i b).set j a
  | _, _ => l

/-- The `for (let i = length-1; i > 0; i--)` loop of `shuffleDeck`:
`fyLoop rng i l` runs the iterations `i, i-1, …, 1`. -/
def fyLoop (rng : Nat → Nat) : Nat → List Card → List Card
  | 0, l => l
  | i + 1, l => fyLoop rng i (swapAt l (i + 1) (rng (i + 1) % (i + 2)))

def shuffleDeck (rng : Nat → Nat) (deck : List Card) : List Card :=
  fyLoop rng (deck.length - 1) deck

/-- One iteration of the round-robin dealing loop of `dealCards`: push
`shuffled[cardIndex]` onto hand `cardIndex % numPlayers`; a missing card
(`undefined` when the deck is too small) is silently skipped. -/
def dealStep (shuffled : List Card) (numPlayers : Nat)
    (hands : List (List Card)) (cardIndex : Nat) : List (List Card) :=
  match shuffled[cardIndex]? with
  | some card =>
      hands.set (cardIndex % numPlayers)
        ((hands[cardIndex % numPlayers]?.getD []) ++ [card])
  | none => hands

/-- `dealCards`: shuffles, then deals round-robin. -/
def dealCards (rng : Nat → Nat) (deck : List Card)
    (numPlayers cardsPerPlayer : Nat) : List (List Card) × List Card :=
  let shuffled := shuffleDeck rng deck
  let hands := (List.range (cardsPerPlayer * numPlayers)).foldl
    (dealStep shuffled numPlayers) (List.replicate numPlayers [])
  (hands, shuffled.drop (cardsPerPlayer * numPlayers))

/-- `getCardPower`: the `powerMap` lookup by the rank's string key.  Every
`Rank` value is a key of the map; the `manilha-*` entries of the source map
are unreachable because no `Rank` value ever equals those strings. -/
def getCardPower (card : Card) : Nat :=
  match card.rank with
  | .four => 1 | .five => 2 | .six => 3 | .seven => 4 | .queen => 5
  | .jack => 6 | .king => 7 | .ace => 8 | .two => 9 | .three => 10

def compareCards (card1 card2 : Card) : Int :=
  if getCardPower card1 > getCardPower card2 then 1
  else if getCardPower card1 < getCardPower card2 then -1
  else 0

/-- The reducer of `findWinningCard`: a strictly stronger card displaces the
incumbent; otherwise the earlier card is kept.  (In the source the
accumulator can never be null once seeded, so its dead `!winner` test is
omitted.) -/
def pickWinner (winner current : Card × String) : Card × String :=
  if compareCards current.1 winner.1 > 0 then current else winner

/-- `findWinningCard` over `{card, playerId}` pairs.  The source reduces with
no initial value (the first element seeds the accumulator) and returns
`null` on the empty list. -/
def findWinningCard (playedCards : List (Card × String)) : Option (Card × String) :=
  match playedCards with
  | [] => none
  | c :: rest => some (rest.foldl pickWinner c)

def isValidPlay (card : Card) (playerHand : List Card) : Bool :=
  playerHand.any fun handCard => handCard.id == card.id

def removeCardFromHand (card : Card) (hand : List Card) : List Card :=
  hand.filter fun handCard => handCard.id != card.id

def validateDeck (deck : List Card) (deckType : DeckType) : Bool :=
  let expectedSize := if deckType = .spanish then 40 else 52
  if deck.length ≠ expectedSize then false
  else (deck.map (·.id)).dedup.length == deck.length

/-! ## Configuration resolver -/

def DEFAULT_TRUCO_CONFIG : GameConfig :=
  ⟨6, 2, 15, false, .spanish, 3⟩

def TEAM_TRUCO_CONFIG : GameConfig :=
  ⟨4, 4, 15, true, .spanish, 3⟩

def QUICK_TRUCO_CONFIG : GameConfig :=
  ⟨4, 2, 9, false, .spanish, 3⟩

def EXTENDED_TRUCO_CONFIG : GameConfig :=
  ⟨6, 2, 30, false, .spanish, 3⟩

def POKER_STYLE_CONFIG : GameConfig :=
  ⟨8, 2, 100, false, .french, 5⟩

def BRIDGE_STYLE_CONFIG : GameConfig :=
  ⟨4, 4, 500, true, .french, 13⟩

structure ConfigValidation where
  isValid : Bool
  errors : List String
deriving DecidableEq

def validateGameConfig (config : GameConfig) : ConfigValidation :=
  let errors : List String :=
    (if config.minPlayers < 1 then ["Minimum players must be at least 1"] else []) ++
    (if config.maxPlayers < config.minPlayers then
      ["Maximum players must be greater than or equal to minimum players"] else []) ++
    (if config.maxScore ≤ 0 then ["Maximum score must be greater than 0"] else []) ++
    (if config.handSize ≤ 0 then ["Hand size must be greater than 0"] else []) ++
    (if config.useTeams ∧ config.maxPlayers % 2 ≠ 0 then
      ["Team games require an even number of players"] else []) ++
    (if config.deckType = .spanish ∧ config.handSize * config.maxPlayers > 40 then
      ["Spanish deck has only 40 cards - not enough for this configuration"] else []) ++
    (if config.deckType = .french ∧ config.handSize * config.maxPlayers > 52 then
      ["French deck has only 52 cards - not enough for this configuration"] else [])
  ⟨errors.length == 0, errors⟩

/-! ## List helpers used by the engine embedding -/

/-- Replace the last element (the pure mirror of mutating the object most
recently pushed onto an array, which the current round/trick always is). -/
def updateLast (f : α → α) : List α → List α
  | [] => []
  | [a] => [f a]
  | a :: b :: rest => a :: updateLast f (b :: rest)

/-- Mutate the first element satisfying `pred` (the pure mirror of
`array.find(...)` followed by in-place mutation of the found object). -/
def modifyFirstWhere (pred : α → Bool) (f : α → α) : List α → List α
  | [] => []
  | a :: rest => if pred a then f a :: rest else a :: modifyFirstWhere pred f rest

/-! ## Game engine (game-engine.ts) -/

/-- `generateId()` produces a `Math.random()`-derived string; nothing in the
engine ever reads these ids, so the model uses a constant. -/
def generateId : String := ""

def initializeGame (config : GameConfig) (now : Nat) : GameState :=
  ⟨generateId, .WAITING, [], [], [], none, [], 0, config.maxScore, now, now⟩

def mkEvent (eventType : String) (payload : EventPayload) (now : Nat)
    (playerId : Option String) : GameEvent :=
  ⟨eventType, payload, now, playerId⟩

/-- Result of a handler: state and events produced so far, plus the
exception (if one escaped at that point). -/
abbrev ERes := GameState × List GameEvent × Option Exc

/-- Sequencing that mirrors statement order: a pending exception skips the
rest of the handler body, keeping the partially mutated state and the
events already emitted. -/
def andThen (r : ERes) (f : GameState → ERes) : ERes :=
  match r with
  | (s, evs, none) =>
      let (s', evs', e) := f s
      (s', evs ++ evs', e)
  | (s, evs, some e) => (s, evs, some e)

/-- Reassign `gameState.currentRound`; because the current round object is
also the last element of `gameState.rounds`, the mirror updates that
element too. -/
def setCurrentRound (r : Round) (s : GameState) : GameState :=
  { s with currentRound := some r, rounds := updateLast (fun _ => r) s.rounds }

/-- `updateTeams`: even seat indices to team1, odd to team2; team score is
the sum of member scores. -/
def updateTeams (config : GameConfig) (s : GameState) : GameState :=
  if !config.useTeams then s
  else
    let team1Players := (s.players.enum.filter (fun ip => ip.1 % 2 == 0)).map (·.2)
    let team2Players := (s.players.enum.filter (fun ip => ip.1 % 2 == 1)).map (·.2)
    let teams :=
      (if team1Players.length > 0 then
        [Team.mk "team1" "Team 1" team1Players
          (team1Players.foldl (fun sum p => sum + p.score) 0)]
       else []) ++
      (if team2Players.length > 0 then
        [Team.mk "team2" "Team 2" team2Players
          (team2Players.foldl (fun sum p => sum + p.score) 0)]
       else [])
    { s with teams := teams }

/-- Set every `isActive` to false (`players.forEach(p => p.isActive = false)`). -/
def clearActive (players : List Player) : List Player :=
  players.map fun p => { p with isActive := false }

/-- `if (players[i]) players[i].isActive = true`. -/
def activateAt (i : Nat) (players : List Player) : List Player :=
  match players[i]? with
  | some p => players.set i { p with isActive := true }
  | none => players

/-- `hands.forEach((hand, index) => players[index].hand = hand)`.  At the
only call site `hands.length = players.length`, for which this zip-style
recursion is exact. -/
def assignHands : List (List Card) → List Player → List Player
  | h :: hs, p :: ps => { p with hand := h } :: assignHands hs ps
  | _, ps => ps

def endGame (now : Nat) (reason : Option String) (s : GameState) : ERes :=
  let s1 := { s with phase := GamePhase.GAME_END }
  match s1.players with
  | [] => (s1, [], some .runtime)   -- [].reduce with no initial value throws
  | p :: rest =>
      let winner := rest.foldl
        (fun prev current => if prev.score > current.score then prev else current) p
      (s1,
        [mkEvent "game_ended"
          (.gameEnded winner.id (s1.players.map fun q => (q.id, q.name, q.score)) reason)
          now none],
        none)

def startNewTrick (now : Nat) (s : GameState) : GameState × List GameEvent :=
  match s.currentRound with
  | none => (s, [])
  | some r =>
      let newTrick : Trick := ⟨generateId, r.tricks.length + 1, [], none, false⟩
      let r1 := { r with currentTrick := some newTrick, tricks := r.tricks ++ [newTrick] }
      let s1 := setCurrentRound r1 s
      let s2 := { s1 with players := activateAt s1.currentPlayerIndex (clearActive s1.players) }
      (s2, [mkEvent "trick_started" (.trickStarted newTrick) now none])

def startNewRound (config : GameConfig) (rng : Nat → Nat → Nat) (now : Nat)
    (s : GameState) : GameState × List GameEvent :=
  let s1 := { s with phase := GamePhase.DEALING }
  let newRound : Round :=
    ⟨generateId, s1.rounds.length + 1, [], none, .NONE, 1, none, none⟩
  let deck := shuffleDeck (rng 0) (createDeck config.deckType)
  let s2 := { s1 with deck := deck }
  let hands := (dealCards (rng 1) deck s2.players.length config.handSize).1
  let s3 := { s2 with
    players := assignHands hands s2.players
    currentRound := some newRound
    rounds := s2.rounds ++ [newRound]
    phase := GamePhase.PLAYING }
  let st := startNewTrick now s3
  -- the emitted round object is the freshly mutated current round
  -- (startNewTrick mutated the same object the event closure captured)
  (st.1, st.2 ++
    [mkEvent "round_started" (.roundStarted (st.1.currentRound.getD newRound)) now none])

def nextPlayer (now : Nat) (s : GameState) : GameState × List GameEvent :=
  -- only called from playCard, where s.players is non-empty; with an empty
  -- players array the source would compute `index % 0 = NaN` instead
  let newIndex :=
    if s.players.length == 0 then s.currentPlayerIndex
    else (s.currentPlayerIndex + 1) % s.players.length
  let s1 := { s with
    players := activateAt newIndex (clearActive s.players)
    currentPlayerIndex := newIndex }
  (s1, [mkEvent "turn_changed"
    (.turnChanged ((s1.players[newIndex]?).map (·.id))) now none])

/-- The `if (trick.winner)` truthiness guard of the win tallies: a winner id
that is `null` — or the empty string, falsy in JavaScript — is not counted. -/
def truthyWinner (t : Trick) : Option String :=
  match t.winner with
  | some w => if w == "" then none else some w
  | none => none

def isRoundComplete (s : GameState) : Bool :=
  match s.currentRound with
  | none => false
  | some r =>
      if r.tricks.length < 2 then false
      else
        let winners := r.tricks.filterMap truthyWinner
        let counts := winners.dedup.map fun w => winners.count w
        -- Math.max(...[]) is -Infinity, for which `>= 2` is false
        (match counts.max? with
         | some m => m ≥ 2
         | none => false) || r.tricks.length ≥ 3

/-- The winner scan of `determineRoundWinner` over a round's completed
tricks.  `Record` keys iterate in insertion order, so the per-player tally
is visited first-trick-winner first, and only a strictly greater win count
displaces the running leader. -/
def roundWinnerOfRound (r : Round) : Option String :=
  let completed := r.tricks.filter (·.isComplete)
  let winners := completed.filterMap truthyWinner
  let entries := winners.dedup.map fun w => (w, winners.count w)
  (entries.foldl
    (fun acc e => if e.2 > acc.1 then (e.2, some e.1) else acc)
    (0, (none : Option String))).2

def determineRoundWinner (s : GameState) : Option String :=
  match s.currentRound with
  | none => none
  | some r => roundWinnerOfRound r

def isGameComplete (s : GameState) : Bool :=
  s.players.any fun player => player.score ≥ s.maxScore

/-- The find-and-bump shape `if (someId) { const pl = players.find(p =>
p.id === someId); if (pl) pl.score += value; }` that appears twice in the
source: in `completeRound` (value = the round's trucoValue, id = the round
winner) and in `handleRejectTruco` (value = 1, id = `calledBy`).  The
`if (someId)` is a JavaScript truthiness test on a `string | null`: it is
false both for `null` and for the empty string, so a recipient id of `""`
skips the whole block. -/
def awardPoints (value : Nat) (recipient : Option String) (s1 : GameState) : GameState :=
  match recipient with
  | some wid =>
      if wid == "" then s1
      else if (s1.players.find? fun p => p.id == wid).isSome then
        let addScore : Player → Player := fun p => { p with score := p.score + value }
        { s1 with players := modifyFirstWhere (fun p => p.id == wid) addScore s1.players }
      else s1
  | none => s1

def completeRound (now : Nat) (s : GameState) : ERes :=
  match s.currentRound with
  | none => (s, [], none)
  | some r =>
      let s1 := { s with phase := GamePhase.ROUND_END }
      let roundWinner := determineRoundWinner s1
      let s2 := awardPoints r.trucoValue roundWinner s1
      let ev := mkEvent "round_completed"
        (.roundCompleted (s2.currentRound.getD r) roundWinner r.trucoValue) now none
      if isGameComplete s2 then
        andThen (s2, [ev], none) (endGame now none)
      else
        -- `setTimeout(() => startNewRound(), 2000)`: the delayed automatic
        -- round start is modelled as a separate `Reachable.timer` step
        (s2, [ev], none)

/-- `const winnerIndex = findIndex(...); if (winnerIndex !== -1)
currentPlayerIndex = winnerIndex;` -/
def setWinnerIndex (wid : String) (s1 : GameState) : GameState :=
  match s1.players.findIdx? (fun p => p.id == wid) with
  | some winnerIndex => { s1 with currentPlayerIndex := winnerIndex }
  | none => s1

def completeTrick (now : Nat) (s : GameState) : ERes :=
  match s.currentRound with
  | none => (s, [], none)
  | some r =>
      match r.currentTrick with
      | none => (s, [], none)
      | some t =>
          match findWinningCard (t.cardsPlayed.map fun pc => (pc.card, pc.playerId)) with
          | none => (s, [], none)
          | some winningPlay =>
              let t1 := { t with winner := some winningPlay.2, isComplete := true }
              let r1 := { r with currentTrick := some t1,
                                 tricks := updateLast (fun _ => t1) r.tricks }
              let s1 := setCurrentRound r1 s
              let s2 := setWinnerIndex winningPlay.2 s1
              let ev := mkEvent "trick_completed" (.trickCompleted t1 winningPlay.2) now none
              if isRoundComplete s2 then
                andThen (s2, [ev], none) (completeRound now)
              else
                let st := startNewTrick now s2
                (st.1, ev :: st.2, none)

def playCard (now : Nat) (playerId : String) (card : Card) (s : GameState) : ERes :=
  match s.currentRound with
  | none => (s, [], none)
  | some r =>
      match r.currentTrick with
      | none => (s, [], none)
      | some t =>
          let playedCard : PlayedCard := ⟨card, playerId, now⟩
          let t1 := { t with cardsPlayed := t.cardsPlayed ++ [playedCard] }
          let r1 := { r with currentTrick := some t1,
                             tricks := updateLast (fun _ => t1) r.tricks }
          let s1 := setCurrentRound r1 s
          let spend : Player → Player :=
            fun p => { p with hand := removeCardFromHand card p.hand, isActive := false }
          let s2 := { s1 with players := modifyFirstWhere (fun p => p.id == playerId) spend s1.players }
          let ev := mkEvent "card_played" (.cardPlayed playerId card t1) now none
          if t1.cardsPlayed.length == s2.players.length then
            andThen (s2, [ev], none) (completeTrick now)
          else
            let st := nextPlayer now s2
            (st.1, ev :: st.2, none)

def handleJoinGame (config : GameConfig) (now : Nat) (playerId : String)
    (playerData : Option ActionData) (s : GameState) : ERes :=
  if s.phase ≠ .WAITING then
    (s, [], some (.game ⟨"Cannot join game that has already started", "GAME_IN_PROGRESS", some playerId⟩))
  else if s.players.length ≥ config.maxPlayers then
    (s, [], some (.game ⟨"Game is full", "GAME_FULL", some playerId⟩))
  else if s.players.any (fun p => p.id == playerId) then
    (s, [], some (.game ⟨"Player already in game", "PLAYER_EXISTS", some playerId⟩))
  else
    match playerData with
    | none => (s, [], some .runtime)   -- `playerData.name` on undefined throws
    | some d =>
        let newPlayer : Player := ⟨playerId, d.name, [], 0, false, false⟩
        let s1 := { s with players := s.players ++ [newPlayer] }
        let s2 := if config.useTeams then updateTeams config s1 else s1
        (s2, [mkEvent "player_joined" (.playerJoined newPlayer) now none], none)

/-- `if (currentPlayerIndex >= players.length) currentPlayerIndex = 0;` -/
def clampCurrentPlayerIndex (s1 : GameState) : GameState :=
  if s1.currentPlayerIndex ≥ s1.players.length then
    { s1 with currentPlayerIndex := 0 }
  else s1

def handleLeaveGame (config : GameConfig) (now : Nat) (playerId : String)
    (s : GameState) : ERes :=
  match s.players.findIdx? (fun p => p.id == playerId) with
  | none => (s, [], some (.game ⟨"Player not in game", "PLAYER_NOT_FOUND", some playerId⟩))
  | some playerIndex =>
      let s1 := { s with players := s.players.eraseIdx playerIndex }
      let s2 := clampCurrentPlayerIndex s1
      let r0 : ERes := (s2, [mkEvent "player_left" (.playerLeft playerId) now none], none)
      let r1 :=
        if s2.players.length < config.minPlayers ∧ s2.phase = .PLAYING then
          andThen r0 (endGame now (some "Not enough players"))
        else r0
      if config.useTeams then
        andThen r1 (fun st => (updateTeams config st, [], none))
      else r1

def handleReadyPlayer (now : Nat) (playerId : String) (s : GameState) : ERes :=
  match s.players.find? (fun p => p.id == playerId) with
  | none => (s, [], some (.game ⟨"Player not found", "PLAYER_NOT_FOUND", some playerId⟩))
  | some player =>
      let toggle : Player → Player := fun p => { p with isReady := !p.isReady }
      let s1 := { s with players := modifyFirstWhere (fun p => p.id == playerId) toggle s.players }
      (s1, [mkEvent "player_ready_changed"
        (.readyChanged playerId (!player.isReady)) now none], none)

def handleStartGame (config : GameConfig) (rng : Nat → Nat → Nat) (now : Nat)
    (playerId : String) (s : GameState) : ERes :=
  if s.phase ≠ .WAITING then
    (s, [], some (.game ⟨"Game already started", "GAME_IN_PROGRESS", some playerId⟩))
  else if s.players.length < config.minPlayers then
    (s, [], some (.game ⟨"Not enough players", "NOT_ENOUGH_PLAYERS", some playerId⟩))
  else if !s.players.all (·.isReady) then
    (s, [], some (.game ⟨"Not all players are ready", "PLAYERS_NOT_READY", some playerId⟩))
  else
    let st := startNewRound config rng now s
    (st.1, st.2 ++ [mkEvent "game_started" .gameStarted now none], none)

def handlePlayCard (now : Nat) (playerId : String) (cardId : Option String)
    (s : GameState) : ERes :=
  if s.phase ≠ .PLAYING then
    (s, [], some (.game ⟨"Game not in playing phase", "INVALID_PHASE", some playerId⟩))
  else
    match s.players.find? (fun p => p.id == playerId) with
    | none => (s, [], some (.game ⟨"Player not found", "PLAYER_NOT_FOUND", some playerId⟩))
    | some player =>
        if !player.isActive then
          (s, [], some (.game ⟨"Not your turn", "NOT_YOUR_TURN", some playerId⟩))
        else
          -- `hand.find(c => c.id === cardId)` finds nothing when cardId is undefined
          match cardId.bind (fun cid => player.hand.find? (fun c => c.id == cid)) with
          | none => (s, [], some (.game ⟨"Card not in hand", "INVALID_CARD", some playerId⟩))
          | some card =>
              match s.currentRound.bind (·.currentTrick) with
              | none => (s, [], some (.game ⟨"No active trick", "NO_ACTIVE_TRICK", some playerId⟩))
              | some _ => playCard now playerId card s

def callOrder : List TrucoCall := [.NONE, .TRUCO, .RETRUCO, .VALE_CUATRO]

def callIndex (c : TrucoCall) : Nat :=
  match c with
  | .NONE => 0 | .TRUCO => 1 | .RETRUCO => 2 | .VALE_CUATRO => 3

/-- `requestedIndex === currentIndex + 1`; an `undefined` requested call has
`indexOf` −1, which never equals `currentIndex + 1 ≥ 1`. -/
def isValidTrucoCall (current : TrucoCall) (requested : Option TrucoCall) : Bool :=
  match requested with
  | none => false
  | some c => callIndex c == callIndex current + 1

def getTrucoValue (call : TrucoCall) : Nat :=
  match call with
  | .NONE => 1 | .TRUCO => 2 | .RETRUCO => 3 | .VALE_CUATRO => 4

def handleCallTruco (now : Nat) (playerId : String) (call : Option TrucoCall)
    (s : GameState) : ERes :=
  match s.currentRound with
  | none => (s, [], some (.game ⟨"No active round", "NO_ACTIVE_ROUND", some playerId⟩))
  | some r =>
      if (s.players.find? (fun p => p.id == playerId)).isNone then
        (s, [], some (.game ⟨"Player not found", "PLAYER_NOT_FOUND", some playerId⟩))
      else if !isValidTrucoCall r.trucoCall call then
        (s, [], some (.game ⟨"Invalid truco call", "INVALID_TRUCO_CALL", some playerId⟩))
      else
        match call with
        | none => (s, [], some .runtime)   -- unreachable: validation rejected none
        | some c =>
            let r1 := { r with trucoCall := c, calledBy := some playerId,
                               trucoValue := getTrucoValue c }
            let s1 := setCurrentRound r1 s
            (s1, [mkEvent "truco_called" (.trucoCalled playerId c (getTrucoValue c)) now none],
              none)

def handleAcceptTruco (now : Nat) (playerId : String) (s : GameState) : ERes :=
  match s.currentRound with
  | none => (s, [], some (.game ⟨"No active round", "NO_ACTIVE_ROUND", some playerId⟩))
  | some r =>
      let s1 := setCurrentRound { r with acceptedBy := some playerId } s
      (s1, [mkEvent "truco_accepted" (.trucoAccepted playerId r.trucoValue) now none], none)

def handleRejectTruco (now : Nat) (playerId : String) (s : GameState) : ERes :=
  match s.currentRound with
  | none => (s, [], some (.game ⟨"No active round", "NO_ACTIVE_ROUND", some playerId⟩))
  | some r =>
      -- "Base point for rejected truco": the caller, if present, gets +1
      let s1 := awardPoints 1 r.calledBy s
      andThen (s1, [mkEvent "truco_rejected" (.trucoRejected playerId) now none], none)
        (completeRound now)

/-- The body of the `try` block of `processAction`: the dispatch switch.
`action.data.cardId` / `action.data.call` are read at the call sites inside
the switch, so a missing `data` throws a TypeError right there. -/
def runAction (config : GameConfig) (rng : Nat → Nat → Nat) (now : Nat)
    (s : GameState) (action : GameActionPayload) : ERes :=
  match action.type with
  | .JOIN_GAME => handleJoinGame config now action.playerId action.data s
  | .LEAVE_GAME => handleLeaveGame config now action.playerId s
  | .READY_PLAYER => handleReadyPlayer now action.playerId s
  | .START_GAME => handleStartGame config rng now action.playerId s
  | .PLAY_CARD =>
      match action.data with
      | none => (s, [], some .runtime)
      | some d => handlePlayCard now action.playerId d.cardId s
  | .CALL_TRUCO =>
      match action.data with
      | none => (s, [], some .runtime)
      | some d => handleCallTruco now action.playerId d.call s
  | .ACCEPT_TRUCO => handleAcceptTruco now action.playerId s
  | .REJECT_TRUCO => handleRejectTruco now action.playerId s
  | other =>
      (s, [], some (.game
        ⟨"Unknown action type: " ++ actionTypeStr other, "INVALID_ACTION", none⟩))

def mkGameErrorEvent (now : Nat) (e : GameErrorE) : GameEvent :=
  mkEvent "game_error" (.gameError e.message e.code) now e.playerId

def mkUnknownErrorEvent (now : Nat) : GameEvent :=
  mkEvent "game_error" (.gameError "Unknown error occurred" "UNKNOWN") now none

/-- `processAction`: runs the dispatch switch; on normal completion stamps
`updatedAt`; a caught exception instead appends the corresponding
`game_error` event (the function is total — nothing propagates to the
caller). -/
def processAction (config : GameConfig) (rng : Nat → Nat → Nat) (now : Nat)
    (s : GameState) (action : GameActionPayload) : GameState × List GameEvent :=
  match runAction config rng now s action with
  | (s1, evs, none) => ({ s1 with updatedAt := now }, evs)
  | (s1, evs, some (.game e)) => (s1, evs ++ [mkGameErrorEvent now e])
  | (s1, evs, some .runtime) => (s1, evs ++ [mkUnknownErrorEvent now])

/-- States reachable from a freshly constructed engine: dispatched actions,
plus the `setTimeout` round-start callback (over-approximated as firable at
any time). -/
inductive Reachable (config : GameConfig) : GameState → Prop
  | init (t : Nat) : Reachable config (initializeGame config t)
  | step {s} (rng : Nat → Nat → Nat) (now : Nat) (a : GameActionPayload) :
      Reachable config s → Reachable config (processAction config rng now s a).1
  | timer {s} (rng : Nat → Nat → Nat) (now : Nat) :
      Reachable config s → Reachable config (startNewRound config rng now s).1

/-! ## Derived measures and properties -/

/-- Number of players currently flagged active. -/
def activeCount (ps : List Player) : Nat := ps.countP (fun p => p.isActive)

/-- The property a validation failure must have: the handler returned the
input state untouched, emitted nothing, and reported exactly this error. -/
def GameErrExit (s : GameState) (r : ERes) : Prop :=
  ∀ e, r.2.2 = some (Exc.game e) → r = (s, [], some (Exc.game e))

/-- The score held for `pid` (reading, like the source's `find`, the first
player with that id; 0 if absent). -/
def scoreOf (players : List Player) (pid : String) : Nat :=
  match players.find? (fun p => p.id == pid) with
  | some p => p.score
  | none => 0

/-! ## Concrete execution fixtures

A deterministic draw source: `rngI _ i = i` makes every Fisher–Yates step
swap an element with itself, so each shuffle is the identity permutation —
one possible run of `Math.random`. -/

def rngI : Nat → Nat → Nat := fun _ i => i

def joinAct (pid name : String) : GameActionPayload :=
  ⟨.JOIN_GAME, pid, some ⟨name, none, none⟩⟩

def bareAct (t : GameAction) (pid : String) : GameActionPayload := ⟨t, pid, none⟩

def playAct (pid cardId : String) : GameActionPayload :=
  ⟨.PLAY_CARD, pid, some ⟨"", some cardId, none⟩⟩

def trucoAct (pid : String) (c : TrucoCall) : GameActionPayload :=
  ⟨.CALL_TRUCO, pid, some ⟨"", none, some c⟩⟩

/-- Trace for the activity counterexample: three players join the default
game, all ready, the game starts (player p1 becomes active), then p1 —
the active player — leaves. -/
def c2s0 : GameState := initializeGame DEFAULT_TRUCO_CONFIG 0

def c2s1 : GameState := (processAction DEFAULT_TRUCO_CONFIG rngI 1 c2s0 (joinAct "p1" "P1")).1

def c2s2 : GameState := (processAction DEFAULT_TRUCO_CONFIG rngI 2 c2s1 (joinAct "p2" "P2")).1

def c2s3 : GameState := (processAction DEFAULT_TRUCO_CONFIG rngI 3 c2s2 (joinAct "p3" "P3")).1

def c2s4 : GameState := (processAction DEFAULT_TRUCO_CONFIG rngI 4 c2s3 (bareAct .READY_PLAYER "p1")).1

def c2s5 : GameState := (processAction DEFAULT_TRUCO_CONFIG rngI 5 c2s4 (bareAct .READY_PLAYER "p2")).1

def c2s6 : GameState := (processAction DEFAULT_TRUCO_CONFIG rngI 6 c2s5 (bareAct .READY_PLAYER "p3")).1

def c2s7 : GameState := (processAction DEFAULT_TRUCO_CONFIG rngI 7 c2s6 (bareAct .START_GAME "p1")).1

def c2s8 : GameState := (processAction DEFAULT_TRUCO_CONFIG rngI 8 c2s7 (bareAct .LEAVE_GAME "p1")).1

/-- Trace for the truco-rejection counterexample: a two-player game; p1 and
p2 each play one card into trick 1 (p2 wins it), then p2 calls TRUCO and p1
rejects it. -/
def c4s2 : GameState := (processAction DEFAULT_TRUCO_CONFIG rngI 2 c2s1 (joinAct "p2" "P2")).1

def c4s3 : GameState := (processAction DEFAULT_TRUCO_CONFIG rngI 3 c4s2 (bareAct .READY_PLAYER "p1")).1

def c4s4 : GameState := (processAction DEFAULT_TRUCO_CONFIG rngI 4 c4s3 (bareAct .READY_PLAYER "p2")).1

def c4s5 : GameState := (processAction DEFAULT_TRUCO_CONFIG rngI 5 c4s4 (bareAct .START_GAME "p1")).1

def c4s6 : GameState := (processAction DEFAULT_TRUCO_CONFIG rngI 6 c4s5 (playAct "p1" "hearts-4")).1

def c4s7 : GameState := (processAction DEFAULT_TRUCO_CONFIG rngI 7 c4s6 (playAct "p2" "hearts-5")).1

def c4s8 : GameState := (processAction DEFAULT_TRUCO_CONFIG rngI 8 c4s7 (trucoAct "p2" .TRUCO)).1

def c4rejected : GameState × List GameEvent :=
  processAction DEFAULT_TRUCO_CONFIG rngI 9 c4s8 (bareAct .REJECT_TRUCO "p1")

def emptyRound : Round := ⟨"", 0, [], none, .NONE, 1, none, none⟩

def c4round : Round := c4s8.currentRound.getD emptyRound

/-- The freshly started round of the two-player trace (trucoCall NONE). -/
def c7round : Round := c4s5.currentRound.getD emptyRound

/-- Sample played cards: the strongest power (3, power 10) appears twice;
the first occurrence must win. -/
def c8cards : List (Card × String) :=
  [(⟨.hearts, .ace, "hearts-A"⟩, "a"), (⟨.hearts, .three, "hearts-3"⟩, "b"),
   (⟨.diamonds, .three, "diamonds-3"⟩, "c")]

/-- A one-player configuration (minPlayers = 1), valid per
`validateGameConfig`, used for the leave-last-player scenario. -/
def soloConfig : GameConfig := ⟨2, 1, 15, false, .spanish, 3⟩

def c9s1 : GameState :=
  (processAction soloConfig rngI 1 (initializeGame soloConfig 0) (joinAct "p1" "P1")).1

def c9s2 : GameState := (processAction soloConfig rngI 2 c9s1 (bareAct .READY_PLAYER "p1")).1

def c9s3 : GameState := (processAction soloConfig rngI 3 c9s2 (bareAct .START_GAME "p1")).1

def c9left : GameState × List GameEvent :=
  processAction soloConfig rngI 4 c9s3 (bareAct .LEAVE_GAME "p1")

/-! ## General lemmas about the list helpers -/

theorem countP_modifyFirstWhere_le (pred : α → Bool) (f : α → α) (q : α → Bool)
    (hf : ∀ a, q (f a) = true → q a = true) (l : List α) :
    (modifyFirstWhere pred f l).countP q ≤ l.countP q := by
  induction l with
  | nil => simp [modifyFirstWhere]
  | cons a rest ih =>
      simp only [modifyFirstWhere]
      split
      · simp only [List.countP_cons]
        have hle : (if q (f a) = true then 1 else 0) ≤ (if q a = true then 1 else 0) := by
          by_cases h : q (f a) = true
          · simp [h, hf a h]
          · simp [h]
        omega
      · simp only [List.countP_cons]
        omega

theorem countP_modifyFirstWhere_eq (pred : α → Bool) (f : α → α) (q : α → Bool)
    (hf : ∀ a, q (f a) = q a) (l : List α) :
    (modifyFirstWhere pred f l).countP q = l.countP q := by
  induction l with
  | nil => rfl
  | cons a rest ih =>
      simp only [modifyFirstWhere]
      split
      · simp [List.countP_cons, hf a]
      · simp [List.countP_cons, ih]

theorem find?_modifyFirstWhere_self (cid : String) (f : Player → Player)
    (hid : ∀ p, (f p).id = p.id) (l : List Player) :
    (modifyFirstWhere (fun p => p.id == cid) f l).find? (fun p => p.id == cid)
      = (l.find? (fun p => p.id == cid)).map f := by
  induction l with
  | nil => rfl
  | cons a rest ih =>
      by_cases h : a.id == cid
      · simp [modifyFirstWhere, h, List.find?_cons, hid a]
      · simp [modifyFirstWhere, h, List.find?_cons, ih]

theorem find?_modifyFirstWhere_other (cid pid : String) (hne : pid ≠ cid)
    (f : Player → Player) (hid : ∀ p, (f p).id = p.id) (l : List Player) :
    (modifyFirstWhere (fun p => p.id == cid) f l).find? (fun p => p.id == pid)
      = l.find? (fun p => p.id == pid) := by
  induction l with
  | nil => rfl
  | cons a rest ih =>
      by_cases h : a.id == cid
      · have ha : a.id = cid := by simpa using h
        have h1 : ((f a).id == pid) = false := by
          simp [hid a, ha]
          exact fun heq => hne heq.symm
        have h2 : (a.id == pid) = false := by
          simp [ha]
          exact fun heq => hne heq.symm
        simp [modifyFirstWhere, h, List.find?_cons, h1, h2]
      · simp only [modifyFirstWhere, h]
        simp only [Bool.false_eq_true, if_false, List.find?_cons]
        split
        · rfl
        · exact ih

theorem mem_updateLast {f : α → α} {l : List α} {x : α} (h : x ∈ updateLast f l) :
    x ∈ l ∨ ∃ a ∈ l, x = f a := by
  induction l with
  | nil => simp [updateLast] at h
  | cons a rest ih =>
      cases rest with
      | nil =>
          simp [updateLast] at h
          exact Or.inr ⟨a, by simp, h⟩
      | cons b t =>
          simp only [updateLast, List.mem_cons] at h
          rcases h with h | h
          · exact Or.inl (by simp [h])
          · rcases ih h with h1 | ⟨c, hc, hx⟩
            · exact Or.inl (by simp [h1])
            · exact Or.inr ⟨c, by simp [hc], hx⟩

/-! ## Lemmas about the deck module -/

theorem length_swapAt (l : List Card) (i j : Nat) : (swapAt l i j).length = l.length := by
  unfold swapAt
  split <;> simp

theorem mem_swapAt {l : List Card} {i j : Nat} {x : Card} (h : x ∈ swapAt l i j) :
    x ∈ l := by
  unfold swapAt at h
  split at h
  case h_1 a b hga hgb =>
    rcases List.mem_or_eq_of_mem_set h with h1 | h1
    · rcases List.mem_or_eq_of_mem_set h1 with h2 | h2
      · exact h2
      · exact h2 ▸ List.getElem?_mem hgb
    · exact h1 ▸ List.getElem?_mem hga
  case h_2 => exact h

theorem length_fyLoop (rng : Nat → Nat) (i : Nat) (l : List Card) :
    (fyLoop rng i l).length = l.length := by
  induction i generalizing l with
  | zero => rfl
  | succ n ih => rw [fyLoop, ih, length_swapAt]

theorem mem_fyLoop {rng : Nat → Nat} {i : Nat} {l : List Card} {x : Card}
    (h : x ∈ fyLoop rng i l) : x ∈ l := by
  induction i generalizing l with
  | zero => exact h
  | succ n ih => exact mem_swapAt (ih h)

theorem length_shuffleDeck (rng : Nat → Nat) (deck : List Card) :
    (shuffleDeck rng deck).length = deck.length :=
  length_fyLoop rng (deck.length - 1) deck

theorem mem_shuffleDeck {rng : Nat → Nat} {deck : List Card} {x : Card}
    (h : x ∈ shuffleDeck rng deck) : x ∈ deck :=
  mem_fyLoop h

theorem length_dealStep (shuffled : List Card) (n : Nat) (hands : List (List Card))
    (i : Nat) : (dealStep shuffled n hands i).length = hands.length := by
  unfold dealStep
  split <;> simp

theorem mem_hand_dealStep {shuffled : List Card} {n : Nat} {hands : List (List Card)}
    {i : Nat} {hand : List Card}
    (hacc : ∀ h ∈ hands, ∀ c ∈ h, c ∈ shuffled)
    (h : hand ∈ dealStep shuffled n hands i) : ∀ c ∈ hand, c ∈ shuffled := by
  unfold dealStep at h
  split at h
  case h_1 card hget =>
    rcases List.mem_or_eq_of_mem_set h with h1 | h1
    · exact hacc hand h1
    · intro c hc
      rw [h1] at hc
      rcases List.mem_append.1 hc with h2 | h2
      · rcases hget2 : hands[i % n]? with _ | old
        · simp [hget2] at h2
        · exact hacc old (List.getElem?_mem hget2) c (by simpa [hget2] using h2)
      · simp at h2
        exact h2 ▸ List.getElem?_mem hget
  case h_2 => exact hacc hand h

theorem mem_hand_dealFold {shuffled : List Card} {n : Nat} (idxs : List Nat)
    (hands : List (List Card)) (hacc : ∀ h ∈ hands, ∀ c ∈ h, c ∈ shuffled) :
    ∀ hand ∈ idxs.foldl (dealStep shuffled n) hands, ∀ c ∈ hand, c ∈ shuffled := by
  induction idxs generalizing hands with
  | nil => exact hacc
  | cons i rest ih =>
      intro hand hmem
      exact ih (dealStep shuffled n hands i)
        (fun h hm => mem_hand_dealStep hacc hm) hand hmem

theorem dealCards_hands_mem (rng : Nat → Nat) (deck : List Card) (n k : Nat) :
    ∀ hand ∈ (dealCards rng deck n k).1, ∀ c ∈ hand, c ∈ deck := by
  intro hand hmem c hc
  have h1 : ∀ h ∈ (List.replicate n ([] : List Card)), ∀ c ∈ h, c ∈ shuffleDeck rng deck := by
    intro h hm
    rcases List.eq_of_mem_replicate hm with rfl
    simp
  exact mem_shuffleDeck (mem_hand_dealFold _ _ h1 hand hmem c hc)

theorem length_dealFold {shuffled : List Card} {n : Nat} (idxs : List Nat)
    (hands : List (List Card)) :
    (idxs.foldl (dealStep shuffled n) hands).length = hands.length := by
  induction idxs generalizing hands with
  | nil => rfl
  | cons i rest ih => rw [List.foldl_cons, ih, length_dealStep]

theorem dealCards_hands_length (rng : Nat → Nat) (deck : List Card) (n k : Nat) :
    (dealCards rng deck n k).1.length = n := by
  unfold dealCards
  simp only [length_dealFold, List.length_replicate]

/-! ## Player-list lemmas for the activity invariant -/

theorem countP_clearActive (l : List Player) : activeCount (clearActive l) = 0 := by
  simp [activeCount, clearActive]

theorem countP_set_le_one (q : α → Bool) (l : List α) (i : Nat) (a : α)
    (h : l.countP q = 0) : (l.set i a).countP q ≤ 1 := by
  induction l generalizing i with
  | nil => simp
  | cons b rest ih =>
      rw [List.countP_cons] at h
      cases i with
      | zero =>
          rw [List.set_cons_zero, List.countP_cons]
          have h1 : rest.countP q = 0 := by omega
          rw [h1]
          split <;> omega
      | succ n =>
          rw [List.set_cons_succ, List.countP_cons]
          have h1 : rest.countP q = 0 := by omega
          have h2 := ih n h1
          omega

theorem countP_activateAt_le_one (i : Nat) (l : List Player)
    (h : activeCount l = 0) : activeCount (activateAt i l) ≤ 1 := by
  unfold activateAt
  split
  · exact countP_set_le_one _ _ _ _ h
  · omega

theorem activeCount_freshTurn (i : Nat) (l : List Player) :
    activeCount (activateAt i (clearActive l)) ≤ 1 :=
  countP_activateAt_le_one i _ (countP_clearActive l)

theorem countP_assignHands (hs : List (List Card)) (ps : List Player) :
    activeCount (assignHands hs ps) = activeCount ps := by
  induction hs generalizing ps with
  | nil => cases ps <;> rfl
  | cons h t ih =>
      cases ps with
      | nil => rfl
      | cons p pr =>
          have hpr := ih pr
          simp only [activeCount, assignHands, List.countP_cons] at hpr ⊢
          simp [hpr]

theorem mem_clearActive {ps : List Player} {p : Player} (h : p ∈ clearActive ps) :
    ∃ q ∈ ps, p.hand = q.hand := by
  unfold clearActive at h
  rcases List.mem_map.1 h with ⟨q, hq, rfl⟩
  exact ⟨q, hq, rfl⟩

theorem mem_activateAt {i : Nat} {ps : List Player} {p : Player}
    (h : p ∈ activateAt i ps) : ∃ q ∈ ps, p.hand = q.hand := by
  unfold activateAt at h
  split at h
  case h_1 a hget =>
    rcases List.mem_or_eq_of_mem_set h with h1 | h1
    · exact ⟨p, h1, rfl⟩
    · exact ⟨a, List.getElem?_mem hget, by rw [h1]⟩
  case h_2 => exact ⟨p, h, rfl⟩

theorem mem_assignHands {hs : List (List Card)} {ps : List Player} {p : Player}
    (hlen : ps.length ≤ hs.length) (h : p ∈ assignHands hs ps) : p.hand ∈ hs := by
  induction hs generalizing ps with
  | nil =>
      cases ps with
      | nil => simp [assignHands] at h
      | cons => simp at hlen
  | cons hd t ih =>
      cases ps with
      | nil => simp [assignHands] at h
      | cons q qr =>
          simp only [assignHands, List.mem_cons] at h
          rcases h with rfl | h
          · simp
          · simp only [List.length_cons] at hlen
            exact List.mem_cons_of_mem _ (ih (by omega) h)

/-! ## Helper-function behaviour lemmas -/

@[simp] theorem setCurrentRound_players (r : Round) (s : GameState) :
    (setCurrentRound r s).players = s.players := rfl

@[simp] theorem setCurrentRound_updatedAt (r : Round) (s : GameState) :
    (setCurrentRound r s).updatedAt = s.updatedAt := rfl

@[simp] theorem setCurrentRound_deck (r : Round) (s : GameState) :
    (setCurrentRound r s).deck = s.deck := rfl

@[simp] theorem setCurrentRound_currentRound (r : Round) (s : GameState) :
    (setCurrentRound r s).currentRound = some r := rfl

@[simp] theorem updateTeams_players (config : GameConfig) (s : GameState) :
    (updateTeams config s).players = s.players := by
  unfold updateTeams
  split <;> rfl

@[simp] theorem updateTeams_updatedAt (config : GameConfig) (s : GameState) :
    (updateTeams config s).updatedAt = s.updatedAt := by
  unfold updateTeams
  split <;> rfl

theorem clampCurrentPlayerIndex_updatedAt (s1 : GameState) :
    (clampCurrentPlayerIndex s1).updatedAt = s1.updatedAt := by
  unfold clampCurrentPlayerIndex
  split <;> rfl

theorem clampCurrentPlayerIndex_players (s1 : GameState) :
    (clampCurrentPlayerIndex s1).players = s1.players := by
  unfold clampCurrentPlayerIndex
  split <;> rfl

theorem endGame_players (now : Nat) (reason : Option String) (s : GameState) :
    (endGame now reason s).1.players = s.players := by
  cases hp : s.players with
  | nil => simp [endGame, hp]
  | cons p rest => simp [endGame, hp]

theorem endGame_updatedAt (now : Nat) (reason : Option String) (s : GameState) :
    (endGame now reason s).1.updatedAt = s.updatedAt := by
  cases hp : s.players with
  | nil => simp [endGame, hp]
  | cons p rest => simp [endGame, hp]

/-- `endGame` can throw only a runtime exception (empty `reduce`), never a
`GameError`. -/
theorem endGame_noGame (now : Nat) (reason : Option String) (s : GameState) :
    ∀ e, (endGame now reason s).2.2 ≠ some (.game e) := by
  intro e
  cases hp : s.players with
  | nil => simp [endGame, hp]
  | cons p rest => simp [endGame, hp]

theorem andThen_fst_pres (P : GameState → Prop) (r : ERes) (f : GameState → ERes)
    (hr : P r.1) (hf : ∀ s, P s → P (f s).1) : P (andThen r f).1 := by
  rcases r with ⟨s, evs, err⟩
  cases err with
  | none => exact hf s hr
  | some e => exact hr

theorem andThen_updatedAt (r : ERes) (f : GameState → ERes)
    (hf : ∀ st, (f st).1.updatedAt = st.updatedAt) :
    (andThen r f).1.updatedAt = r.1.updatedAt := by
  rcases r with ⟨s, evs, err⟩
  cases err with
  | none => exact hf s
  | some e => rfl

theorem andThen_players_le (r : ERes) (f : GameState → ERes)
    (hf : ∀ st, activeCount (f st).1.players ≤ activeCount st.players) :
    activeCount (andThen r f).1.players ≤ activeCount r.1.players := by
  rcases r with ⟨s, evs, err⟩
  cases err with
  | none => exact hf s
  | some e => exact le_refl _

theorem andThen_noGame (r : ERes) (f : GameState → ERes)
    (hr : ∀ e, r.2.2 ≠ some (.game e)) (hf : ∀ s e, (f s).2.2 ≠ some (.game e)) :
    ∀ e, (andThen r f).2.2 ≠ some (.game e) := by
  intro e
  rcases r with ⟨s, evs, err⟩
  cases err with
  | none =>
      simp only [andThen]
      exact hf s e
  | some ex => exact hr e

theorem startNewTrick_updatedAt (now : Nat) (s : GameState) :
    (startNewTrick now s).1.updatedAt = s.updatedAt := by
  cases hr : s.currentRound with
  | none => simp [startNewTrick, hr]
  | some r => simp [startNewTrick, hr]

theorem startNewTrick_deck (now : Nat) (s : GameState) :
    (startNewTrick now s).1.deck = s.deck := by
  cases hr : s.currentRound with
  | none => simp [startNewTrick, hr]
  | some r => simp [startNewTrick, hr]

theorem startNewTrick_active (now : Nat) (s : GameState) :
    activeCount (startNewTrick now s).1.players ≤ max (activeCount s.players) 1 := by
  cases hr : s.currentRound with
  | none =>
      simp only [startNewTrick, hr]
      exact Nat.le_max_left _ _
  | some r =>
      simp only [startNewTrick, hr]
      exact le_trans (activeCount_freshTurn _ _) (Nat.le_max_right _ _)

theorem startNewTrick_hands (now : Nat) (s : GameState) :
    ∀ p ∈ (startNewTrick now s).1.players, ∃ q ∈ s.players, p.hand = q.hand := by
  cases hr : s.currentRound with
  | none =>
      simp only [startNewTrick, hr]
      exact fun p hp => ⟨p, hp, rfl⟩
  | some r =>
      simp only [startNewTrick, hr]
      intro p hp
      rcases mem_activateAt hp with ⟨q, hq, hpq⟩
      rcases mem_clearActive hq with ⟨q2, hq2, hqq⟩
      exact ⟨q2, by simpa using hq2, hpq.trans hqq⟩

theorem nextPlayer_updatedAt (now : Nat) (s : GameState) :
    (nextPlayer now s).1.updatedAt = s.updatedAt := by
  simp [nextPlayer]

theorem nextPlayer_active (now : Nat) (s : GameState) :
    activeCount (nextPlayer now s).1.players ≤ max (activeCount s.players) 1 := by
  simp only [nextPlayer]
  exact le_trans (activeCount_freshTurn _ _) (Nat.le_max_right _ _)

theorem startNewRound_updatedAt (config : GameConfig) (rng : Nat → Nat → Nat)
    (now : Nat) (s : GameState) :
    (startNewRound config rng now s).1.updatedAt = s.updatedAt := by
  simp only [startNewRound]
  rw [startNewTrick_updatedAt]

theorem startNewRound_active (config : GameConfig) (rng : Nat → Nat → Nat)
    (now : Nat) (s : GameState) :
    activeCount (startNewRound config rng now s).1.players
      ≤ max (activeCount s.players) 1 := by
  simp only [startNewRound]
  refine le_trans (startNewTrick_active now _) ?_
  simp only [countP_assignHands]
  exact le_refl _

theorem awardPoints_updatedAt (v : Nat) (w : Option String) (s1 : GameState) :
    (awardPoints v w s1).updatedAt = s1.updatedAt := by
  unfold awardPoints
  split
  · split
    · rfl
    · split <;> rfl
  · rfl

theorem awardPoints_active (v : Nat) (w : Option String) (s1 : GameState) :
    activeCount (awardPoints v w s1).players = activeCount s1.players := by
  unfold awardPoints
  split
  · split
    · rfl
    · split
      · simp only [activeCount]
        apply countP_modifyFirstWhere_eq
        intro p
        rfl
      · rfl
  · rfl

theorem awardPoints_currentRound (v : Nat) (w : Option String) (s1 : GameState) :
    (awardPoints v w s1).currentRound = s1.currentRound := by
  unfold awardPoints
  split
  · split
    · rfl
    · split <;> rfl
  · rfl

theorem awardPoints_phase (v : Nat) (w : Option String) (s1 : GameState) :
    (awardPoints v w s1).phase = s1.phase := by
  unfold awardPoints
  split
  · split
    · rfl
    · split <;> rfl
  · rfl

theorem setWinnerIndex_updatedAt (wid : String) (s1 : GameState) :
    (setWinnerIndex wid s1).updatedAt = s1.updatedAt := by
  unfold setWinnerIndex
  split <;> rfl

theorem setWinnerIndex_players (wid : String) (s1 : GameState) :
    (setWinnerIndex wid s1).players = s1.players := by
  unfold setWinnerIndex
  split <;> rfl

theorem completeRound_updatedAt (now : Nat) (s : GameState) :
    (completeRound now s).1.updatedAt = s.updatedAt := by
  cases hr : s.currentRound with
  | none => simp [completeRound, hr]
  | some r =>
      simp only [completeRound, hr]
      split
      · refine andThen_fst_pres (fun st => st.updatedAt = s.updatedAt) _ _ ?_ ?_
        · simp [awardPoints_updatedAt]
        · intro st hst
          rw [endGame_updatedAt]
          exact hst
      · simp [awardPoints_updatedAt]

theorem completeRound_active (now : Nat) (s : GameState) :
    activeCount (completeRound now s).1.players ≤ activeCount s.players := by
  cases hr : s.currentRound with
  | none => simp [completeRound, hr]
  | some r =>
      simp only [completeRound, hr]
      split
      · refine andThen_fst_pres
          (fun st => activeCount st.players ≤ activeCount s.players) _ _ ?_ ?_
        · simp only [awardPoints_active]
          exact le_of_eq rfl
        · intro st hst
          rw [endGame_players]
          exact hst
      · simp only [awardPoints_active]
        exact le_of_eq rfl

theorem completeRound_noGame (now : Nat) (s : GameState) :
    ∀ e, (completeRound now s).2.2 ≠ some (.game e) := by
  intro e
  cases hr : s.currentRound with
  | none => simp [completeRound, hr]
  | some r =>
      simp only [completeRound, hr]
      split
      · exact andThen_noGame _ _ (by simp) (fun st => endGame_noGame now none st) e
      · simp

theorem completeTrick_updatedAt (now : Nat) (s : GameState) :
    (completeTrick now s).1.updatedAt = s.updatedAt := by
  cases hr : s.currentRound with
  | none => simp [completeTrick, hr]
  | some r =>
      cases ht : r.currentTrick with
      | none => simp [completeTrick, hr, ht]
      | some t =>
          simp only [completeTrick, hr, ht]
          cases hw : findWinningCard (t.cardsPlayed.map fun pc => (pc.card, pc.playerId)) with
          | none => simp
          | some w =>
              simp only
              split
              · refine andThen_fst_pres (fun st => st.updatedAt = s.updatedAt) _ _ ?_ ?_
                · simp [setWinnerIndex_updatedAt]
                · intro st hst
                  rw [completeRound_updatedAt]
                  exact hst
              · rw [startNewTrick_updatedAt, setWinnerIndex_updatedAt]
                simp

theorem completeTrick_active (now : Nat) (s : GameState) :
    activeCount (completeTrick now s).1.players ≤ max (activeCount s.players) 1 := by
  cases hr : s.currentRound with
  | none =>
      simp only [completeTrick, hr]
      exact Nat.le_max_left _ _
  | some r =>
      cases ht : r.currentTrick with
      | none =>
          simp only [completeTrick, hr, ht]
          exact Nat.le_max_left _ _
      | some t =>
          simp only [completeTrick, hr, ht]
          cases hw : findWinningCard (t.cardsPlayed.map fun pc => (pc.card, pc.playerId)) with
          | none =>
              simp only
              exact Nat.le_max_left _ _
          | some w =>
              simp only
              split
              · refine andThen_fst_pres
                  (fun st => activeCount st.players ≤ max (activeCount s.players) 1) _ _ ?_ ?_
                · simp only [setWinnerIndex_players, setCurrentRound_players]
                  exact Nat.le_max_left _ _
                · intro st hst
                  exact le_trans (completeRound_active now st) hst
              · refine le_trans (startNewTrick_active now _) ?_
                simp only [setWinnerIndex_players, setCurrentRound_players]
                exact max_le (Nat.le_max_left _ _) (Nat.le_max_right _ _)

theorem completeTrick_noGame (now : Nat) (s : GameState) :
    ∀ e, (completeTrick now s).2.2 ≠ some (.game e) := by
  intro e
  cases hr : s.currentRound with
  | none => simp [completeTrick, hr]
  | some r =>
      cases ht : r.currentTrick with
      | none => simp [completeTrick, hr, ht]
      | some t =>
          simp only [completeTrick, hr, ht]
          cases hw : findWinningCard (t.cardsPlayed.map fun pc => (pc.card, pc.playerId)) with
          | none => simp
          | some w =>
              simp only
              split
              · exact andThen_noGame _ _ (by simp) (fun st => completeRound_noGame now st) e
              · simp

theorem playCard_updatedAt (now : Nat) (pid : String) (card : Card) (s : GameState) :
    (playCard now pid card s).1.updatedAt = s.updatedAt := by
  cases hr : s.currentRound with
  | none => simp [playCard, hr]
  | some r =>
      cases ht : r.currentTrick with
      | none => simp [playCard, hr, ht]
      | some t =>
          simp only [playCard, hr, ht]
          split
          · refine andThen_fst_pres (fun st => st.updatedAt = s.updatedAt) _ _ (by simp) ?_
            intro st hst
            rw [completeTrick_updatedAt]
            exact hst
          · rw [nextPlayer_updatedAt]
            simp

theorem playCard_active (now : Nat) (pid : String) (card : Card) (s : GameState) :
    activeCount (playCard now pid card s).1.players ≤ max (activeCount s.players) 1 := by
  have hmod : ∀ (l : List Player) (f : Player → Player),
      (∀ p, (f p).isActive = false) →
      activeCount (modifyFirstWhere (fun p => p.id == pid) f l) ≤ activeCount l := by
    intro l f hf
    apply countP_modifyFirstWhere_le
    intro a ha
    rw [hf a] at ha
    exact absurd ha (by simp)
  cases hr : s.currentRound with
  | none =>
      simp only [playCard, hr]
      exact Nat.le_max_left _ _
  | some r =>
      cases ht : r.currentTrick with
      | none =>
          simp only [playCard, hr, ht]
          exact Nat.le_max_left _ _
      | some t =>
          simp only [playCard, hr, ht]
          split
          · refine andThen_fst_pres
              (fun st => activeCount st.players ≤ max (activeCount s.players) 1) _ _ ?_ ?_
            · refine le_trans (hmod _ _ (fun p => rfl)) ?_
              simp only [setCurrentRound_players]
              exact Nat.le_max_left _ _
            · intro st hst
              refine le_trans (completeTrick_active now st) ?_
              exact max_le hst (Nat.le_max_right _ _)
          · refine le_trans (nextPlayer_active now _) ?_
            refine max_le ?_ (Nat.le_max_right _ _)
            refine le_trans (hmod _ _ (fun p => rfl)) ?_
            simp only [setCurrentRound_players]
            exact Nat.le_max_left _ _

theorem playCard_noGame (now : Nat) (pid : String) (card : Card) (s : GameState) :
    ∀ e, (playCard now pid card s).2.2 ≠ some (.game e) := by
  intro e
  cases hr : s.currentRound with
  | none => simp [playCard, hr]
  | some r =>
      cases ht : r.currentTrick with
      | none => simp [playCard, hr, ht]
      | some t =>
          simp only [playCard, hr, ht]
          split
          · exact andThen_noGame _ _ (by simp) (fun st => completeTrick_noGame now st) e
          · simp


theorem handleJoinGame_updatedAt (config : GameConfig) (now : Nat) (pid : String)
    (pdata : Option ActionData) (s : GameState) :
    (handleJoinGame config now pid pdata s).1.updatedAt = s.updatedAt := by
  unfold handleJoinGame
  split
  · rfl
  split
  · rfl
  split
  · rfl
  cases pdata with
  | none => rfl
  | some d =>
      simp only
      split
      · rw [updateTeams_updatedAt]
      · rfl

theorem handleJoinGame_active (config : GameConfig) (now : Nat) (pid : String)
    (pdata : Option ActionData) (s : GameState) :
    activeCount (handleJoinGame config now pid pdata s).1.players
      ≤ max (activeCount s.players) 1 := by
  unfold handleJoinGame
  split
  · exact Nat.le_max_left _ _
  split
  · exact Nat.le_max_left _ _
  split
  · exact Nat.le_max_left _ _
  cases pdata with
  | none => exact Nat.le_max_left _ _
  | some d =>
      simp only
      have happ : activeCount (s.players ++ [Player.mk pid d.name [] 0 false false])
          = activeCount s.players := by
        simp [activeCount, List.countP_append]
      split
      · rw [updateTeams_players, happ]
        exact Nat.le_max_left _ _
      · simp only [happ]
        exact Nat.le_max_left _ _

theorem handleJoinGame_errExit (config : GameConfig) (now : Nat) (pid : String)
    (pdata : Option ActionData) (s : GameState) :
    GameErrExit s (handleJoinGame config now pid pdata s) := by
  unfold GameErrExit handleJoinGame
  split
  · intro e he
    simp only [Option.some.injEq, Exc.game.injEq] at he
    subst he
    rfl
  split
  · intro e he
    simp only [Option.some.injEq, Exc.game.injEq] at he
    subst he
    rfl
  split
  · intro e he
    simp only [Option.some.injEq, Exc.game.injEq] at he
    subst he
    rfl
  cases pdata with
  | none =>
      intro e he
      simp at he
  | some d =>
      intro e he
      simp at he

theorem handleLeaveGame_updatedAt (config : GameConfig) (now : Nat) (pid : String)
    (s : GameState) :
    (handleLeaveGame config now pid s).1.updatedAt = s.updatedAt := by
  unfold handleLeaveGame
  split
  · rfl
  · simp only
    have hr1 : ∀ (r1 : ERes), r1.1.updatedAt = s.updatedAt →
        (if config.useTeams = true then
          andThen r1 (fun st => (updateTeams config st, [], none)) else r1).1.updatedAt
          = s.updatedAt := by
      intro r1 h1
      split
      · rw [andThen_updatedAt _ _ (fun st => updateTeams_updatedAt config st)]
        exact h1
      · exact h1
    apply hr1
    split
    · rw [andThen_updatedAt _ _ (fun st => endGame_updatedAt now _ st)]
      exact clampCurrentPlayerIndex_updatedAt _
    · exact clampCurrentPlayerIndex_updatedAt _

theorem handleLeaveGame_active (config : GameConfig) (now : Nat) (pid : String)
    (s : GameState) :
    activeCount (handleLeaveGame config now pid s).1.players
      ≤ max (activeCount s.players) 1 := by
  have herase : ∀ i, activeCount (s.players.eraseIdx i) ≤ activeCount s.players :=
    fun i => (List.eraseIdx_sublist s.players i).countP_le _
  unfold handleLeaveGame
  split
  · exact Nat.le_max_left _ _
  · simp only
    have hr1 : ∀ (r1 : ERes), activeCount r1.1.players ≤ activeCount s.players →
        activeCount (if config.useTeams = true then
          andThen r1 (fun st => (updateTeams config st, [], none)) else r1).1.players
          ≤ max (activeCount s.players) 1 := by
      intro r1 h1
      split
      · refine le_trans (andThen_players_le _ _ ?_) (le_trans h1 (Nat.le_max_left _ _))
        intro st
        rw [updateTeams_players]
      · exact le_trans h1 (Nat.le_max_left _ _)
    apply hr1
    split
    · refine le_trans (andThen_players_le _ _ ?_) ?_
      · intro st
        rw [endGame_players]
      · rw [clampCurrentPlayerIndex_players]
        exact herase _
    · rw [clampCurrentPlayerIndex_players]
      exact herase _

theorem handleLeaveGame_errExit (config : GameConfig) (now : Nat) (pid : String)
    (s : GameState) :
    GameErrExit s (handleLeaveGame config now pid s) := by
  unfold GameErrExit handleLeaveGame
  split
  · intro e he
    simp only [Option.some.injEq, Exc.game.injEq] at he
    subst he
    rfl
  · intro e he
    refine absurd he ?_
    simp only
    split
    · refine andThen_noGame _ _ ?_ (fun st e2 => by simp) e
      intro e2
      split
      · exact andThen_noGame _ _ (by simp) (fun st => endGame_noGame now _ st) e2
      · simp
    · split
      · exact andThen_noGame _ _ (by simp) (fun st => endGame_noGame now _ st) e
      · simp

theorem handleReadyPlayer_updatedAt (now : Nat) (pid : String) (s : GameState) :
    (handleReadyPlayer now pid s).1.updatedAt = s.updatedAt := by
  unfold handleReadyPlayer
  split <;> rfl

theorem handleReadyPlayer_active (now : Nat) (pid : String) (s : GameState) :
    activeCount (handleReadyPlayer now pid s).1.players
      ≤ max (activeCount s.players) 1 := by
  unfold handleReadyPlayer
  split
  · exact Nat.le_max_left _ _
  · simp only
    refine le_trans (le_of_eq ?_) (Nat.le_max_left _ _)
    simp only [activeCount]
    apply countP_modifyFirstWhere_eq
    intro p
    rfl

theorem handleReadyPlayer_errExit (now : Nat) (pid : String) (s : GameState) :
    GameErrExit s (handleReadyPlayer now pid s) := by
  unfold GameErrExit handleReadyPlayer
  split
  · intro e he
    simp only [Option.some.injEq, Exc.game.injEq] at he
    subst he
    rfl
  · intro e he
    simp at he

theorem handleStartGame_updatedAt (config : GameConfig) (rng : Nat → Nat → Nat)
    (now : Nat) (pid : String) (s : GameState) :
    (handleStartGame config rng now pid s).1.updatedAt = s.updatedAt := by
  unfold handleStartGame
  split
  · rfl
  split
  · rfl
  split
  · rfl
  simp only
  rw [startNewRound_updatedAt]

theorem handleStartGame_active (config : GameConfig) (rng : Nat → Nat → Nat)
    (now : Nat) (pid : String) (s : GameState) :
    activeCount (handleStartGame config rng now pid s).1.players
      ≤ max (activeCount s.players) 1 := by
  unfold handleStartGame
  split
  · exact Nat.le_max_left _ _
  split
  · exact Nat.le_max_left _ _
  split
  · exact Nat.le_max_left _ _
  simp only
  exact startNewRound_active config rng now s

theorem handleStartGame_errExit (config : GameConfig) (rng : Nat → Nat → Nat)
    (now : Nat) (pid : String) (s : GameState) :
    GameErrExit s (handleStartGame config rng now pid s) := by
  unfold GameErrExit handleStartGame
  split
  · intro e he
    simp only [Option.some.injEq, Exc.game.injEq] at he
    subst he
    rfl
  split
  · intro e he
    simp only [Option.some.injEq, Exc.game.injEq] at he
    subst he
    rfl
  split
  · intro e he
    simp only [Option.some.injEq, Exc.game.injEq] at he
    subst he
    rfl
  intro e he
  simp at he

theorem handlePlayCard_updatedAt (now : Nat) (pid : String) (cardId : Option String)
    (s : GameState) :
    (handlePlayCard now pid cardId s).1.updatedAt = s.updatedAt := by
  unfold handlePlayCard
  split
  · rfl
  split
  · rfl
  split
  · rfl
  split
  · rfl
  split
  · rfl
  exact playCard_updatedAt now pid _ s

theorem handlePlayCard_active (now : Nat) (pid : String) (cardId : Option String)
    (s : GameState) :
    activeCount (handlePlayCard now pid cardId s).1.players
      ≤ max (activeCount s.players) 1 := by
  unfold handlePlayCard
  split
  · exact Nat.le_max_left _ _
  split
  · exact Nat.le_max_left _ _
  split
  · exact Nat.le_max_left _ _
  split
  · exact Nat.le_max_left _ _
  split
  · exact Nat.le_max_left _ _
  exact playCard_active now pid _ s

theorem handlePlayCard_errExit (now : Nat) (pid : String) (cardId : Option String)
    (s : GameState) :
    GameErrExit s (handlePlayCard now pid cardId s) := by
  unfold GameErrExit handlePlayCard
  split
  · intro e he
    simp only [Option.some.injEq, Exc.game.injEq] at he
    subst he
    rfl
  split
  · intro e he
    simp only [Option.some.injEq, Exc.game.injEq] at he
    subst he
    rfl
  split
  · intro e he
    simp only [Option.some.injEq, Exc.game.injEq] at he
    subst he
    rfl
  split
  · intro e he
    simp only [Option.some.injEq, Exc.game.injEq] at he
    subst he
    rfl
  split
  · intro e he
    simp only [Option.some.injEq, Exc.game.injEq] at he
    subst he
    rfl
  intro e he
  exact absurd he (playCard_noGame now pid _ s e)

theorem handleCallTruco_updatedAt (now : Nat) (pid : String) (call : Option TrucoCall)
    (s : GameState) :
    (handleCallTruco now pid call s).1.updatedAt = s.updatedAt := by
  unfold handleCallTruco
  split
  · rfl
  split
  · rfl
  split
  · rfl
  split <;> rfl

theorem handleCallTruco_active (now : Nat) (pid : String) (call : Option TrucoCall)
    (s : GameState) :
    activeCount (handleCallTruco now pid call s).1.players
      ≤ max (activeCount s.players) 1 := by
  unfold handleCallTruco
  split
  · exact Nat.le_max_left _ _
  split
  · exact Nat.le_max_left _ _
  split
  · exact Nat.le_max_left _ _
  split
  · exact Nat.le_max_left _ _
  · simp only [setCurrentRound_players]
    exact Nat.le_max_left _ _

theorem handleCallTruco_errExit (now : Nat) (pid : String) (call : Option TrucoCall)
    (s : GameState) :
    GameErrExit s (handleCallTruco now pid call s) := by
  unfold GameErrExit handleCallTruco
  split
  · intro e he
    simp only [Option.some.injEq, Exc.game.injEq] at he
    subst he
    rfl
  split
  · intro e he
    simp only [Option.some.injEq, Exc.game.injEq] at he
    subst he
    rfl
  split
  · intro e he
    simp only [Option.some.injEq, Exc.game.injEq] at he
    subst he
    rfl
  split <;> intro e he <;> simp at he

theorem handleAcceptTruco_updatedAt (now : Nat) (pid : String) (s : GameState) :
    (handleAcceptTruco now pid s).1.updatedAt = s.updatedAt := by
  unfold handleAcceptTruco
  split <;> rfl

theorem handleAcceptTruco_active (now : Nat) (pid : String) (s : GameState) :
    activeCount (handleAcceptTruco now pid s).1.players
      ≤ max (activeCount s.players) 1 := by
  unfold handleAcceptTruco
  split
  · exact Nat.le_max_left _ _
  · simp only [setCurrentRound_players]
    exact Nat.le_max_left _ _

theorem handleAcceptTruco_errExit (now : Nat) (pid : String) (s : GameState) :
    GameErrExit s (handleAcceptTruco now pid s) := by
  unfold GameErrExit handleAcceptTruco
  split
  · intro e he
    simp only [Option.some.injEq, Exc.game.injEq] at he
    subst he
    rfl
  · intro e he
    simp at he

theorem handleRejectTruco_updatedAt (now : Nat) (pid : String) (s : GameState) :
    (handleRejectTruco now pid s).1.updatedAt = s.updatedAt := by
  unfold handleRejectTruco
  split
  · rfl
  · refine andThen_fst_pres (fun st => st.updatedAt = s.updatedAt) _ _ ?_ ?_
    · exact awardPoints_updatedAt _ _ _
    · intro st hst
      rw [completeRound_updatedAt]
      exact hst

theorem handleRejectTruco_active (now : Nat) (pid : String) (s : GameState) :
    activeCount (handleRejectTruco now pid s).1.players
      ≤ max (activeCount s.players) 1 := by
  unfold handleRejectTruco
  split
  · exact Nat.le_max_left _ _
  · refine andThen_fst_pres
      (fun st => activeCount st.players ≤ max (activeCount s.players) 1) _ _ ?_ ?_
    · refine le_trans (le_of_eq ?_) (Nat.le_max_left _ _)
      exact awardPoints_active _ _ _
    · intro st hst
      exact le_trans (completeRound_active now st) hst

theorem handleRejectTruco_errExit (now : Nat) (pid : String) (s : GameState) :
    GameErrExit s (handleRejectTruco now pid s) := by
  unfold GameErrExit handleRejectTruco
  split
  · intro e he
    simp only [Option.some.injEq, Exc.game.injEq] at he
    subst he
    rfl
  · intro e he
    refine absurd he ?_
    exact andThen_noGame _ _ (by simp) (fun st => completeRound_noGame now st) e

/-! ## Dispatch-level lemmas -/

theorem runAction_updatedAt (config : GameConfig) (rng : Nat → Nat → Nat) (now : Nat)
    (s : GameState) (a : GameActionPayload) :
    (runAction config rng now s a).1.updatedAt = s.updatedAt := by
  rcases a with ⟨t, pid, data⟩
  cases t with
  | JOIN_GAME => exact handleJoinGame_updatedAt config now pid data s
  | LEAVE_GAME => exact handleLeaveGame_updatedAt config now pid s
  | READY_PLAYER => exact handleReadyPlayer_updatedAt now pid s
  | START_GAME => exact handleStartGame_updatedAt config rng now pid s
  | PLAY_CARD =>
      cases data with
      | none => rfl
      | some d => exact handlePlayCard_updatedAt now pid d.cardId s
  | CALL_TRUCO =>
      cases data with
      | none => rfl
      | some d => exact handleCallTruco_updatedAt now pid d.call s
  | ACCEPT_TRUCO => exact handleAcceptTruco_updatedAt now pid s
  | REJECT_TRUCO => exact handleRejectTruco_updatedAt now pid s
  | DEAL_CARDS => rfl
  | NEXT_ROUND => rfl
  | END_GAME => rfl

theorem runAction_active (config : GameConfig) (rng : Nat → Nat → Nat) (now : Nat)
    (s : GameState) (a : GameActionPayload) :
    activeCount (runAction config rng now s a).1.players
      ≤ max (activeCount s.players) 1 := by
  rcases a with ⟨t, pid, data⟩
  cases t with
  | JOIN_GAME => exact handleJoinGame_active config now pid data s
  | LEAVE_GAME => exact handleLeaveGame_active config now pid s
  | READY_PLAYER => exact handleReadyPlayer_active now pid s
  | START_GAME => exact handleStartGame_active config rng now pid s
  | PLAY_CARD =>
      cases data with
      | none => exact Nat.le_max_left _ _
      | some d => exact handlePlayCard_active now pid d.cardId s
  | CALL_TRUCO =>
      cases data with
      | none => exact Nat.le_max_left _ _
      | some d => exact handleCallTruco_active now pid d.call s
  | ACCEPT_TRUCO => exact handleAcceptTruco_active now pid s
  | REJECT_TRUCO => exact handleRejectTruco_active now pid s
  | DEAL_CARDS => exact Nat.le_max_left _ _
  | NEXT_ROUND => exact Nat.le_max_left _ _
  | END_GAME => exact Nat.le_max_left _ _

theorem runAction_errExit (config : GameConfig) (rng : Nat → Nat → Nat) (now : Nat)
    (s : GameState) (a : GameActionPayload) :
    GameErrExit s (runAction config rng now s a) := by
  rcases a with ⟨t, pid, data⟩
  cases t with
  | JOIN_GAME => exact handleJoinGame_errExit config now pid data s
  | LEAVE_GAME => exact handleLeaveGame_errExit config now pid s
  | READY_PLAYER => exact handleReadyPlayer_errExit now pid s
  | START_GAME => exact handleStartGame_errExit config rng now pid s
  | PLAY_CARD =>
      cases data with
      | none => intro e he; simp [runAction] at he
      | some d => exact handlePlayCard_errExit now pid d.cardId s
  | CALL_TRUCO =>
      cases data with
      | none => intro e he; simp [runAction] at he
      | some d => exact handleCallTruco_errExit now pid d.call s
  | ACCEPT_TRUCO => exact handleAcceptTruco_errExit now pid s
  | REJECT_TRUCO => exact handleRejectTruco_errExit now pid s
  | DEAL_CARDS =>
      intro e he
      simp only [runAction, Option.some.injEq, Exc.game.injEq] at he
      subst he
      rfl
  | NEXT_ROUND =>
      intro e he
      simp only [runAction, Option.some.injEq, Exc.game.injEq] at he
      subst he
      rfl
  | END_GAME =>
      intro e he
      simp only [runAction, Option.some.injEq, Exc.game.injEq] at he
      subst he
      rfl

theorem processAction_players_eq (config : GameConfig) (rng : Nat → Nat → Nat)
    (now : Nat) (s : GameState) (a : GameActionPayload) :
    (processAction config rng now s a).1.players = (runAction config rng now s a).1.players := by
  rcases h : runAction config rng now s a with ⟨s1, evs, err⟩
  unfold processAction
  rw [h]
  cases err with
  | none => rfl
  | some e => cases e <;> rfl

theorem processAction_active (config : GameConfig) (rng : Nat → Nat → Nat)
    (now : Nat) (s : GameState) (a : GameActionPayload) :
    activeCount (processAction config rng now s a).1.players
      ≤ max (activeCount s.players) 1 := by
  rw [processAction_players_eq]
  exact runAction_active config rng now s a

/-! ## Score bookkeeping lemmas -/

theorem endGame_phase (now : Nat) (reason : Option String) (s : GameState) :
    (endGame now reason s).1.phase = GamePhase.GAME_END := by
  cases hp : s.players with
  | nil => simp [endGame, hp]
  | cons p rest => simp [endGame, hp]

theorem awardPoints_find?_isSome (v : Nat) (w : Option String) (s1 : GameState)
    (pid : String) :
    ((awardPoints v w s1).players.find? fun p => p.id == pid).isSome
      = (s1.players.find? fun p => p.id == pid).isSome := by
  cases w with
  | none => rfl
  | some wid =>
      simp only [awardPoints]
      split
      · rfl
      split
      · simp only
        by_cases hwid : pid = wid
        · subst hwid
          rw [find?_modifyFirstWhere_self pid (fun p => { p with score := p.score + v }) (fun p => rfl)]
          cases s1.players.find? fun p => p.id == pid <;> rfl
        · rw [find?_modifyFirstWhere_other wid pid hwid (fun p => { p with score := p.score + v }) (fun p => rfl)]
      · rfl

theorem scoreOf_awardPoints (v : Nat) (w : Option String) (s1 : GameState)
    (pid : String) (hp : (s1.players.find? fun p => p.id == pid).isSome = true) :
    scoreOf (awardPoints v w s1).players pid
      = scoreOf s1.players pid + (if w = some pid ∧ pid ≠ "" then v else 0) := by
  cases w with
  | none => simp [awardPoints, scoreOf]
  | some wid =>
      simp only [awardPoints]
      by_cases hempty : (wid == "") = true
      · rw [if_pos hempty]
        have hwe : wid = "" := by simpa using hempty
        have hwn : ¬ (some wid = some pid ∧ pid ≠ "") := by
          rintro ⟨h1, h2⟩
          exact h2 (by rw [← Option.some.inj h1, hwe])
        rw [if_neg hwn]
        simp
      · rw [if_neg hempty]
        have hwidne : wid ≠ "" := by simpa using hempty
        by_cases hwid : wid = pid
        · subst hwid
          rw [if_pos hp]
          simp only [scoreOf]
          rw [find?_modifyFirstWhere_self wid (fun p => { p with score := p.score + v }) (fun p => rfl)]
          rcases hfind : s1.players.find? fun p => p.id == wid with _ | p
          · rw [hfind] at hp
            simp at hp
          · simp [hfind, hwidne]
        · have hne : pid ≠ wid := fun h => hwid h.symm
          split
          · simp only [scoreOf]
            rw [find?_modifyFirstWhere_other wid pid hne (fun p => { p with score := p.score + v }) (fun p => rfl)]
            simp [hwid]
          · simp [scoreOf, hwid]

theorem completeRound_players (now : Nat) (s : GameState) (r : Round)
    (hr : s.currentRound = some r) :
    (completeRound now s).1.players
      = (awardPoints r.trucoValue (roundWinnerOfRound r)
          { s with phase := GamePhase.ROUND_END }).players := by
  simp only [completeRound, hr, determineRoundWinner]
  split
  · show (endGame now none _).1.players = _
    rw [endGame_players]
  · rfl

theorem completeRound_phase' (now : Nat) (s : GameState) (r : Round)
    (hr : s.currentRound = some r) :
    (completeRound now s).1.phase = GamePhase.ROUND_END ∨
      (completeRound now s).1.phase = GamePhase.GAME_END := by
  simp only [completeRound, hr, determineRoundWinner]
  split
  · right
    show (endGame now none _).1.phase = _
    rw [endGame_phase]
  · left
    rw [awardPoints_phase]

/-! ## findWinningCard analysis -/

theorem compareCards_pos_iff (a b : Card) :
    compareCards a b > 0 ↔ getCardPower a > getCardPower b := by
  unfold compareCards
  split
  · simp only [gt_iff_lt]
    constructor
    · intro _
      assumption
    · intro _
      norm_num
  · split
    · simp only [gt_iff_lt]
      constructor
      · intro h
        norm_num at h
      · intro h
        omega
    · simp only [gt_iff_lt]
      constructor
      · intro h
        norm_num at h
      · intro h
        omega

/-- The left fold of `findWinningCard` returns the first element of
`acc :: rest` achieving the maximum power: everything before it is strictly
weaker, everything after it is no stronger. -/
theorem foldl_pickWinner_split (rest : List (Card × String)) (acc : Card × String) :
    ∃ l1 l2,
      acc :: rest = l1 ++ (rest.foldl pickWinner acc) :: l2 ∧
      (∀ x ∈ l1, getCardPower x.1 < getCardPower (rest.foldl pickWinner acc).1) ∧
      (∀ x ∈ l2, getCardPower x.1 ≤ getCardPower (rest.foldl pickWinner acc).1) := by
  induction rest generalizing acc with
  | nil => exact ⟨[], [], rfl, by simp, by simp⟩
  | cons x xs ih =>
      rw [List.foldl_cons]
      by_cases hcmp : compareCards x.1 acc.1 > 0
      · have hgt : getCardPower x.1 > getCardPower acc.1 := (compareCards_pos_iff _ _).1 hcmp
        have hpick : pickWinner acc x = x := by simp [pickWinner, hcmp]
        rw [hpick]
        rcases ih x with ⟨l1, l2, heq, hl1, hl2⟩
        refine ⟨acc :: l1, l2, ?_, ?_, hl2⟩
        · rw [List.cons_append, ← heq]
        · intro y hy
          rcases List.mem_cons.1 hy with rfl | hy1
          · -- acc < winner: x ≤ winner since x is l1's head or the winner itself
            cases l1 with
            | nil =>
                rw [List.nil_append] at heq
                injection heq with h1 h2
                calc getCardPower y.1 < getCardPower x.1 := hgt
                  _ = getCardPower (xs.foldl pickWinner x).1 := by rw [← h1]
            | cons a l1' =>
                rw [List.cons_append] at heq
                injection heq with h1 h2
                have ha := hl1 a (by simp)
                calc getCardPower y.1 < getCardPower x.1 := hgt
                  _ < getCardPower (xs.foldl pickWinner x).1 := h1 ▸ ha
          · exact hl1 y hy1
      · have hle : getCardPower x.1 ≤ getCardPower acc.1 := by
          by_contra hgt
          exact hcmp ((compareCards_pos_iff _ _).2 (by omega))
        have hpick : pickWinner acc x = acc := by simp [pickWinner, hcmp]
        rw [hpick]
        rcases ih acc with ⟨l1, l2, heq, hl1, hl2⟩
        cases l1 with
        | nil =>
            rw [List.nil_append] at heq
            injection heq with h1 h2
            refine ⟨[], x :: xs, ?_, by simp, ?_⟩
            · rw [List.nil_append, ← h1]
            · intro y hy
              rcases List.mem_cons.1 hy with rfl | hy1
              · calc getCardPower y.1 ≤ getCardPower acc.1 := hle
                  _ = getCardPower (xs.foldl pickWinner acc).1 := by rw [← h1]
              · rw [h2] at hy1
                exact hl2 y hy1
        | cons a l1' =>
            rw [List.cons_append] at heq
            injection heq with h1 h2
            have haw := hl1 a (by simp)
            refine ⟨acc :: x :: l1', l2, ?_, ?_, hl2⟩
            · simp only [List.cons_append]
              rw [← h2]
            · intro y hy
              rcases List.mem_cons.1 hy with rfl | hy1
              · exact h1 ▸ haw
              rcases List.mem_cons.1 hy1 with rfl | hy2
              · calc getCardPower y.1 ≤ getCardPower acc.1 := hle
                  _ < _ := h1 ▸ haw
              · exact hl1 y (by simp [hy2])

theorem getTrucoValue_eq_callIndex (c : TrucoCall) : getTrucoValue c = callIndex c + 1 := by
  cases c <;> rfl

/-! ## The reachable-state activity invariant -/

theorem reachable_active_le_one (config : GameConfig) (s : GameState)
    (h : Reachable config s) : activeCount s.players ≤ 1 := by
  induction h with
  | init t => simp [initializeGame, activeCount]
  | step rng now a hs ih =>
      exact le_trans (processAction_active _ rng now _ a) (max_le ih (le_refl 1))
  | timer rng now hs ih =>
      exact le_trans (startNewRound_active _ rng now _) (max_le ih (le_refl 1))

/-! ## Claim theorems -/

set_option maxRecDepth 100000

/-- C1: whenever the dispatch switch rejects an action with a `GameError`
(wrong phase, unknown player, not your turn, card not in hand, invalid truco
call, unknown action type, …), `processAction` returns normally (the
exception is caught — the model is a total function), the `GameState` it
returns is exactly the state before the call (no field, player, round,
trick or score mutated, `updatedAt` included), and the emitted events are
exactly one `game_error` event carrying the error's message, code and
playerId. -/
theorem C1_gameError_is_atomic (config : GameConfig) (rng : Nat → Nat → Nat)
    (now : Nat) (s : GameState) (a : GameActionPayload) (e : GameErrorE)
    (h : (runAction config rng now s a).2.2 = some (Exc.game e)) :
    processAction config rng now s a = (s, [mkGameErrorEvent now e]) := by
  have hx := runAction_errExit config rng now s a e h
  unfold processAction
  rw [hx]
  rfl

/-- C1 witness: dispatching READY_PLAYER for a player who never joined is
rejected with PLAYER_NOT_FOUND, leaves the freshly initialized state
untouched and emits exactly the one game_error event. -/
theorem C1_witness :
    processAction DEFAULT_TRUCO_CONFIG rngI 1 (initializeGame DEFAULT_TRUCO_CONFIG 0)
        (bareAct .READY_PLAYER "p1")
      = (initializeGame DEFAULT_TRUCO_CONFIG 0,
         [mkGameErrorEvent 1 ⟨"Player not found", "PLAYER_NOT_FOUND", some "p1"⟩]) :=
  C1_gameError_is_atomic DEFAULT_TRUCO_CONFIG rngI 1 _ _ _ (by decide)

/-- C6 (amended): `updatedAt` is stamped with the current time only when the
dispatched action completes without an exception; when validation fails (or
any exception is caught) the stamp line is skipped and `updatedAt` keeps its
previous value. -/
theorem C6_updatedAt_stamped_on_success_only (config : GameConfig)
    (rng : Nat → Nat → Nat) (now : Nat) (s : GameState) (a : GameActionPayload) :
    ((runAction config rng now s a).2.2 = none →
      (processAction config rng now s a).1.updatedAt = now) ∧
    (∀ ex, (runAction config rng now s a).2.2 = some ex →
      (processAction config rng now s a).1.updatedAt = s.updatedAt) := by
  have hu := runAction_updatedAt config rng now s a
  constructor
  · intro h
    rcases hE : runAction config rng now s a with ⟨s1, evs, err⟩
    rw [hE] at h hu
    simp only at h hu
    subst h
    unfold processAction
    rw [hE]
  · intro ex h
    rcases hE : runAction config rng now s a with ⟨s1, evs, err⟩
    rw [hE] at h hu
    simp only at h hu
    subst h
    unfold processAction
    rw [hE]
    cases ex with
    | game e => exact hu
    | runtime => exact hu

/-- C6 counterexample: a rejected action does not stamp `updatedAt`.
Dispatching READY_PLAYER for an unknown player at time 7 on a state whose
`updatedAt` is 5 leaves `updatedAt` at 5, not 7. -/
theorem C6_counterexample :
    (processAction DEFAULT_TRUCO_CONFIG rngI 7 (initializeGame DEFAULT_TRUCO_CONFIG 5)
        (bareAct .READY_PLAYER "p1")).1.updatedAt = 5 ∧ (5 : Nat) ≠ 7 := by
  constructor
  · decide
  · decide

/-- C6 witness: a successful JOIN_GAME at time 9 stamps `updatedAt` to 9; a
rejected READY_PLAYER at time 7 leaves `updatedAt` at its prior value. -/
theorem C6_witness :
    (processAction DEFAULT_TRUCO_CONFIG rngI 9 (initializeGame DEFAULT_TRUCO_CONFIG 5)
        (joinAct "p1" "P1")).1.updatedAt = 9 ∧
    (processAction DEFAULT_TRUCO_CONFIG rngI 7 (initializeGame DEFAULT_TRUCO_CONFIG 5)
        (bareAct .READY_PLAYER "p1")).1.updatedAt
      = (initializeGame DEFAULT_TRUCO_CONFIG 5).updatedAt :=
  ⟨(C6_updatedAt_stamped_on_success_only DEFAULT_TRUCO_CONFIG rngI 9 _ _).1 (by decide),
   (C6_updatedAt_stamped_on_success_only DEFAULT_TRUCO_CONFIG rngI 7 _ _).2
     (Exc.game ⟨"Player not found", "PLAYER_NOT_FOUND", some "p1"⟩) (by decide)⟩

/-- C10: a missing `data` payload on a recognized action raises a TypeError
at the `action.data.…` access; `processAction` catches every such
non-GameError exception and emits a game_error event with code `UNKNOWN`,
message "Unknown error occurred" and no playerId, without throwing to the
caller.  For PLAY_CARD and CALL_TRUCO the access happens at the dispatch
site, in any state; for JOIN_GAME it happens after validation passes. -/
theorem C10_missing_data_unknown_error (config : GameConfig)
    (rng : Nat → Nat → Nat) (now : Nat) :
    (∀ s pid, processAction config rng now s ⟨.PLAY_CARD, pid, none⟩
        = (s, [mkUnknownErrorEvent now])) ∧
    (∀ s pid, processAction config rng now s ⟨.CALL_TRUCO, pid, none⟩
        = (s, [mkUnknownErrorEvent now])) ∧
    (∀ s pid, s.phase = GamePhase.WAITING → s.players.length < config.maxPlayers →
      (s.players.any fun p => p.id == pid) = false →
      processAction config rng now s ⟨.JOIN_GAME, pid, none⟩
        = (s, [mkUnknownErrorEvent now])) ∧
    (∀ s a, (runAction config rng now s a).2.2 = some Exc.runtime →
      (processAction config rng now s a).2
        = (runAction config rng now s a).2.1 ++ [mkUnknownErrorEvent now]) := by
  refine ⟨?_, ?_, ?_, ?_⟩
  · intro s pid
    simp [processAction, runAction]
  · intro s pid
    simp [processAction, runAction]
  · intro s pid h1 h2 h3
    have h2' : ¬ s.players.length ≥ config.maxPlayers := Nat.not_le.mpr h2
    simp [processAction, runAction, handleJoinGame, h1, h2', h3]
  · intro s a h
    rcases hE : runAction config rng now s a with ⟨s1, evs, err⟩
    rw [hE] at h
    simp only at h
    subst h
    unfold processAction
    rw [hE]

/-- C10 witness: PLAY_CARD and JOIN_GAME dispatched with no data on a fresh
state produce exactly one UNKNOWN game_error event and leave the state
unchanged. -/
theorem C10_witness :
    processAction DEFAULT_TRUCO_CONFIG rngI 3 (initializeGame DEFAULT_TRUCO_CONFIG 0)
        ⟨.PLAY_CARD, "p1", none⟩
      = (initializeGame DEFAULT_TRUCO_CONFIG 0, [mkUnknownErrorEvent 3]) ∧
    processAction DEFAULT_TRUCO_CONFIG rngI 4 (initializeGame DEFAULT_TRUCO_CONFIG 0)
        ⟨.JOIN_GAME, "p1", none⟩
      = (initializeGame DEFAULT_TRUCO_CONFIG 0, [mkUnknownErrorEvent 4]) :=
  ⟨(C10_missing_data_unknown_error DEFAULT_TRUCO_CONFIG rngI 3).1 _ _,
   (C10_missing_data_unknown_error DEFAULT_TRUCO_CONFIG rngI 4).2.2.1 _ _
     (by decide) (by decide) (by decide)⟩

/-- C2 (amended): in every state reachable by dispatched actions (and the
automatic round-start timer), at most one player has `isActive = true` — in
particular during the PLAYING phase.  "Exactly one during PLAYING" does not
hold: LEAVE_GAME removing the currently active player leaves zero active
players while the phase remains PLAYING (see the counterexample). -/
theorem C2_at_most_one_active (config : GameConfig) (s : GameState)
    (h : Reachable config s) : activeCount s.players ≤ 1 :=
  reachable_active_le_one config s h

/-- C2 witness: the freshly initialized engine state is reachable and has at
most one active player. -/
theorem C2_witness : activeCount (initializeGame DEFAULT_TRUCO_CONFIG 0).players ≤ 1 :=
  C2_at_most_one_active DEFAULT_TRUCO_CONFIG _ (Reachable.init 0)

/-- C2 counterexample: three players join, all ready, the game starts (p1 is
the active player), then p1 leaves.  The resulting reachable state still has
phase PLAYING but zero active players — not exactly one. -/
theorem C2_counterexample :
    Reachable DEFAULT_TRUCO_CONFIG c2s8 ∧ c2s8.phase = GamePhase.PLAYING ∧
      activeCount c2s8.players = 0 := by
  refine ⟨?_, by decide, by decide⟩
  exact Reachable.step rngI 8 (bareAct .LEAVE_GAME "p1")
    (Reachable.step rngI 7 (bareAct .START_GAME "p1")
      (Reachable.step rngI 6 (bareAct .READY_PLAYER "p3")
        (Reachable.step rngI 5 (bareAct .READY_PLAYER "p2")
          (Reachable.step rngI 4 (bareAct .READY_PLAYER "p1")
            (Reachable.step rngI 3 (joinAct "p3" "P3")
              (Reachable.step rngI 2 (joinAct "p2" "P2")
                (Reachable.step rngI 1 (joinAct "p1" "P1")
                  (Reachable.init 0))))))))

/-- C3 (amended): after a round start `GameState.deck` is not the undealt
remainder but the full shuffled deck — `dealCards`' `remainingDeck` is
discarded.  The deck's length equals the full deck size for the configured
type, and every card dealt into a player's hand still appears in
`GameState.deck`. -/
theorem C3_deck_keeps_all_cards (config : GameConfig) (rng : Nat → Nat → Nat)
    (now : Nat) (s : GameState) :
    (startNewRound config rng now s).1.deck.length = (createDeck config.deckType).length ∧
    ∀ p ∈ (startNewRound config rng now s).1.players, ∀ c ∈ p.hand,
      c ∈ (startNewRound config rng now s).1.deck := by
  simp only [startNewRound]
  constructor
  · rw [startNewTrick_deck]
    exact length_shuffleDeck _ _
  · intro p hp c hc
    rw [startNewTrick_deck]
    rcases startNewTrick_hands now _ p hp with ⟨q, hq, hpq⟩
    have hhand : q.hand ∈ (dealCards (rng 1)
        (shuffleDeck (rng 0) (createDeck config.deckType))
        s.players.length config.handSize).1 := by
      refine mem_assignHands ?_ hq
      rw [dealCards_hands_length]
    exact dealCards_hands_mem (rng 1) _ _ _ q.hand hhand c (hpq ▸ hc)

/-- C3 counterexample: in a started two-player game with hand size 3 the
deck still holds all 40 cards (not 40 − 2·3 = 34), and p1's dealt card
hearts-4 appears both in p1's hand and in the deck. -/
theorem C3_counterexample :
    c4s5.deck.length = 40 ∧ c4s5.deck.length ≠ 40 - 2 * 3 ∧
    (∃ p ∈ c4s5.players, (⟨Suit.hearts, Rank.four, "hearts-4"⟩ : Card) ∈ p.hand) ∧
    (⟨Suit.hearts, Rank.four, "hearts-4"⟩ : Card) ∈ c4s5.deck := by
  exact ⟨by decide, by decide, by decide, by decide⟩

/-- C3 witness: instantiating the amended claim on a concrete pre-deal state
(two joined, readied players): the dealt deck keeps the full 40 cards and
p1's first dealt card is still in it. -/
theorem C3_witness :
    (startNewRound DEFAULT_TRUCO_CONFIG rngI 5 c4s4).1.deck.length
      = (createDeck DEFAULT_TRUCO_CONFIG.deckType).length ∧
    (⟨Suit.hearts, Rank.four, "hearts-4"⟩ : Card)
      ∈ (startNewRound DEFAULT_TRUCO_CONFIG rngI 5 c4s4).1.deck := by
  refine ⟨(C3_deck_keeps_all_cards DEFAULT_TRUCO_CONFIG rngI 5 c4s4).1, ?_⟩
  refine (C3_deck_keeps_all_cards DEFAULT_TRUCO_CONFIG rngI 5 c4s4).2
    (Player.mk "p1" "P1"
      [⟨Suit.hearts, Rank.four, "hearts-4"⟩, ⟨Suit.hearts, Rank.six, "hearts-6"⟩,
       ⟨Suit.hearts, Rank.queen, "hearts-Q"⟩] 0 true true)
    (by decide) _ (by decide)

theorem truthyWinner_ne_empty (t : Trick) (w : String) (h : truthyWinner t = some w) :
    w ≠ "" := by
  cases ht : t.winner with
  | none =>
      simp only [truthyWinner, ht] at h
      exact absurd h (by simp)
  | some w2 =>
      simp only [truthyWinner, ht] at h
      by_cases hw2 : (w2 == "") = true
      · rw [if_pos hw2] at h
        simp at h
      · rw [if_neg hw2] at h
        have hwe : w2 = w := Option.some.inj h
        subst hwe
        simpa using hw2

/-- The leader produced by the `determineRoundWinner` scan comes from the
seed or from some visited entry. -/
theorem foldl_leader_mem (entries : List (String × Nat)) (acc : Nat × Option String)
    (w : String)
    (h : (entries.foldl (fun acc e => if e.2 > acc.1 then (e.2, some e.1) else acc) acc).2
      = some w)
    (hacc : ∀ w2, acc.2 = some w2 → w2 ≠ "")
    (hent : ∀ e ∈ entries, e.1 ≠ "") : w ≠ "" := by
  induction entries generalizing acc with
  | nil => exact hacc w h
  | cons e rest ih =>
      simp only [List.foldl_cons] at h
      refine ih _ h ?_ (fun e2 he2 => hent e2 (by simp [he2]))
      intro w2 hw2
      by_cases hc : e.2 > acc.1
      · rw [if_pos hc] at hw2
        have hwe : e.1 = w2 := Option.some.inj hw2
        subst hwe
        exact hent e (by simp)
      · rw [if_neg hc] at hw2
        exact hacc w2 hw2

/-- The round-winner scan only ever selects a truthy (non-empty) winner id,
because the tallies skip `if (trick.winner)`-falsy winners. -/
theorem roundWinnerOfRound_ne_empty (r : Round) (w : String)
    (h : roundWinnerOfRound r = some w) : w ≠ "" := by
  simp only [roundWinnerOfRound] at h
  refine foldl_leader_mem _ _ w h (by simp) ?_
  intro e he
  rcases List.mem_map.1 he with ⟨w2, hw2, rfl⟩
  rcases List.mem_filterMap.1 (List.mem_dedup.1 hw2) with ⟨t, ht, htw⟩
  exact truthyWinner_ne_empty t w2 htw

theorem scoreOf_awardPoints_phase (v : Nat) (w : Option String) (s1 : GameState)
    (ph : GamePhase) (pid : String) :
    scoreOf (awardPoints v w { s1 with phase := ph }).players pid
      = scoreOf (awardPoints v w s1).players pid := by
  cases w with
  | none => rfl
  | some wid =>
      simp only [awardPoints]
      split
      · rfl
      · split <;> rfl

theorem processAction_phase_eq (config : GameConfig) (rng : Nat → Nat → Nat)
    (now : Nat) (s : GameState) (a : GameActionPayload) :
    (processAction config rng now s a).1.phase = (runAction config rng now s a).1.phase := by
  rcases h : runAction config rng now s a with ⟨s1, evs, err⟩
  unfold processAction
  rw [h]
  cases err with
  | none => rfl
  | some e => cases e <;> rfl

/-- C4 (amended): REJECT_TRUCO with an active round whose `calledBy` is set
to a present player with a non-empty id (the source guards the award with a
JavaScript truthiness test, so an empty-string caller id would skip it)
gives the calling player a flat +1 (independent of trucoValue), and
completes the round immediately (phase becomes ROUND_END, or GAME_END when
the score limit is hit) — but round completion additionally awards the
round's `trucoValue` to the player with the most completed-trick wins, so
that player's score also rises; the claim's "no other score change" does not
hold. -/
theorem C4_rejectTruco_scoring (config : GameConfig) (rng : Nat → Nat → Nat)
    (now : Nat) (s : GameState) (r : Round) (cid dispatcher : String)
    (hr : s.currentRound = some r) (hc : r.calledBy = some cid)
    (hcaller : (s.players.find? fun p => p.id == cid).isSome = true)
    (hcid : cid ≠ "") :
    (scoreOf (processAction config rng now s (bareAct .REJECT_TRUCO dispatcher)).1.players cid
      = scoreOf s.players cid + 1
        + (if roundWinnerOfRound r = some cid then r.trucoValue else 0)) ∧
    (∀ pid, pid ≠ cid → (s.players.find? fun p => p.id == pid).isSome = true →
      scoreOf (processAction config rng now s (bareAct .REJECT_TRUCO dispatcher)).1.players pid
        = scoreOf s.players pid
          + (if roundWinnerOfRound r = some pid then r.trucoValue else 0)) ∧
    ((processAction config rng now s (bareAct .REJECT_TRUCO dispatcher)).1.phase
        = GamePhase.ROUND_END ∨
      (processAction config rng now s (bareAct .REJECT_TRUCO dispatcher)).1.phase
        = GamePhase.GAME_END) := by
  have hrun : runAction config rng now s (bareAct .REJECT_TRUCO dispatcher)
      = handleRejectTruco now dispatcher s := rfl
  have hr1 : (awardPoints 1 r.calledBy s).currentRound = some r := by
    rw [awardPoints_currentRound]
    exact hr
  have hfst : (handleRejectTruco now dispatcher s).1
      = (completeRound now (awardPoints 1 r.calledBy s)).1 := by
    simp only [handleRejectTruco, hr]
    rfl
  have hplayers : (processAction config rng now s (bareAct .REJECT_TRUCO dispatcher)).1.players
      = (awardPoints r.trucoValue (roundWinnerOfRound r)
          { awardPoints 1 r.calledBy s with phase := GamePhase.ROUND_END }).players := by
    rw [processAction_players_eq, hrun, hfst]
    exact completeRound_players now _ r hr1
  have hsome1 : ((awardPoints 1 r.calledBy s).players.find? fun p => p.id == cid).isSome
      = true := by
    rw [awardPoints_find?_isSome]
    exact hcaller
  refine ⟨?_, ?_, ?_⟩
  · rw [hplayers, scoreOf_awardPoints_phase]
    rw [scoreOf_awardPoints _ _ _ _ hsome1]
    rw [hc]
    rw [scoreOf_awardPoints _ _ _ _ hcaller]
    simp [hcid]
  · intro pid hne hpid
    have hsomep : ((awardPoints 1 r.calledBy s).players.find? fun p => p.id == pid).isSome
        = true := by
      rw [awardPoints_find?_isSome]
      exact hpid
    rw [hplayers, scoreOf_awardPoints_phase]
    rw [scoreOf_awardPoints _ _ _ _ hsomep]
    rw [hc]
    rw [scoreOf_awardPoints _ _ _ _ hpid]
    have hnotc : ¬ (some cid = some pid) := by
      intro hx
      exact hne (Option.some.inj hx).symm
    by_cases hw : roundWinnerOfRound r = some pid
    · have hpe := roundWinnerOfRound_ne_empty r pid hw
      simp [hnotc, hw, hpe]
    · simp [hnotc, hw]
  · rw [processAction_phase_eq, hrun, hfst]
    exact completeRound_phase' now _ r hr1

/-- C4 counterexample: two-player game, p2 wins trick 1, p2 calls TRUCO
(trucoValue 2), p1 rejects.  Caller p2's score rises by 3 (flat 1 for the
rejection plus trucoValue 2 as round winner), not by exactly 1. -/
theorem C4_counterexample :
    scoreOf c4s8.players "p2" = 0 ∧
    scoreOf c4rejected.1.players "p2" = 3 ∧
    ¬ scoreOf c4rejected.1.players "p2" = scoreOf c4s8.players "p2" + 1 := by
  exact ⟨by decide, by decide, by decide⟩

/-- C4 witness: the amended scoring equation instantiated on the concrete
rejection state: p2 (caller and trick winner) ends with 0 + 1 + trucoValue. -/
theorem C4_witness :
    scoreOf c4rejected.1.players "p2"
      = scoreOf c4s8.players "p2" + 1
        + (if roundWinnerOfRound c4round = some "p2" then c4round.trucoValue else 0) :=
  (C4_rejectTruco_scoring DEFAULT_TRUCO_CONFIG rngI 9 c4s8 c4round "p2" "p1"
    (by decide) (by decide) (by decide) (by decide)).1

/-- C7: with an active round and a present player, CALL_TRUCO with call `c`
succeeds iff `c` is exactly one step above the round's current call in the
order NONE < TRUCO < RETRUCO < VALE_CUATRO; otherwise it is rejected with
INVALID_TRUCO_CALL and the state (round included) is unchanged.  On success
the round records `trucoCall = c`, `calledBy` = the caller, and
`trucoValue` = 2/3/4 for TRUCO/RETRUCO/VALE_CUATRO; whenever the round's
value was consistent (`trucoValue = getTrucoValue trucoCall`), the new
value is strictly greater — so `trucoValue` never decreases in a round. -/
theorem C7_callTruco_step (config : GameConfig) (rng : Nat → Nat → Nat) (now : Nat)
    (s : GameState) (r : Round) (pid : String) (c : TrucoCall)
    (hr : s.currentRound = some r)
    (hp : (s.players.find? fun p => p.id == pid).isSome = true) :
    (isValidTrucoCall r.trucoCall (some c) = true ↔ callIndex c = callIndex r.trucoCall + 1) ∧
    (isValidTrucoCall r.trucoCall (some c) = false →
      processAction config rng now s (trucoAct pid c)
        = (s, [mkGameErrorEvent now ⟨"Invalid truco call", "INVALID_TRUCO_CALL", some pid⟩])) ∧
    (isValidTrucoCall r.trucoCall (some c) = true →
      ∃ r1 : Round,
        (processAction config rng now s (trucoAct pid c)).1.currentRound = some r1 ∧
        r1.trucoCall = c ∧ r1.calledBy = some pid ∧ r1.trucoValue = getTrucoValue c ∧
        c ≠ TrucoCall.NONE ∧
        (c = TrucoCall.TRUCO → r1.trucoValue = 2) ∧
        (c = TrucoCall.RETRUCO → r1.trucoValue = 3) ∧
        (c = TrucoCall.VALE_CUATRO → r1.trucoValue = 4) ∧
        (r.trucoValue = getTrucoValue r.trucoCall → r.trucoValue < r1.trucoValue)) := by
  rcases Option.isSome_iff_exists.1 hp with ⟨p, hfind⟩
  refine ⟨by simp [isValidTrucoCall], ?_, ?_⟩
  · intro hv
    have herr : (runAction config rng now s (trucoAct pid c)).2.2
        = some (Exc.game ⟨"Invalid truco call", "INVALID_TRUCO_CALL", some pid⟩) := by
      show (handleCallTruco now pid (some c) s).2.2 = _
      simp [handleCallTruco, hr, hfind, hv]
    have hx := runAction_errExit config rng now s (trucoAct pid c) _ herr
    unfold processAction
    rw [hx]
    rfl
  · intro hv
    have hidx : callIndex c = callIndex r.trucoCall + 1 := by
      simpa [isValidTrucoCall] using hv
    have hne : c ≠ TrucoCall.NONE := by
      intro hcn
      rw [hcn] at hidx
      simp [callIndex] at hidx
    have hEr : runAction config rng now s (trucoAct pid c)
        = (setCurrentRound
            { r with trucoCall := c, calledBy := some pid, trucoValue := getTrucoValue c } s,
           [mkEvent "truco_called" (.trucoCalled pid c (getTrucoValue c)) now none], none) := by
      show handleCallTruco now pid (some c) s = _
      simp [handleCallTruco, hr, hfind, hv]
    refine ⟨{ r with trucoCall := c, calledBy := some pid, trucoValue := getTrucoValue c },
      ?_, rfl, rfl, rfl, hne, fun h => by rw [h]; rfl, fun h => by rw [h]; rfl,
      fun h => by rw [h]; rfl, ?_⟩
    · unfold processAction
      rw [hEr]
      rfl
    · intro hval
      rw [hval]
      simp only [getTrucoValue_eq_callIndex, hidx]
      omega

/-- C7 witness: in the freshly started two-player round (current call NONE,
trucoValue 1), calling TRUCO succeeds and sets trucoCall TRUCO, calledBy p1
and trucoValue 2 > 1. -/
theorem C7_witness :
    ∃ r1 : Round,
      (processAction DEFAULT_TRUCO_CONFIG rngI 6 c4s5 (trucoAct "p1" TrucoCall.TRUCO)).1.currentRound
        = some r1 ∧
      r1.trucoCall = TrucoCall.TRUCO ∧ r1.calledBy = some "p1" ∧
      r1.trucoValue = getTrucoValue TrucoCall.TRUCO ∧
      TrucoCall.TRUCO ≠ TrucoCall.NONE ∧
      (TrucoCall.TRUCO = TrucoCall.TRUCO → r1.trucoValue = 2) ∧
      (TrucoCall.TRUCO = TrucoCall.RETRUCO → r1.trucoValue = 3) ∧
      (TrucoCall.TRUCO = TrucoCall.VALE_CUATRO → r1.trucoValue = 4) ∧
      (c7round.trucoValue = getTrucoValue c7round.trucoCall →
        c7round.trucoValue < r1.trucoValue) :=
  (C7_callTruco_step DEFAULT_TRUCO_CONFIG rngI 6 c4s5 c7round "p1" TrucoCall.TRUCO
    (by decide) (by decide)).2.2 (by decide)

/-- C8: findWinningCard of a non-empty list returns the first-played card
achieving the maximum power (everything played before it is strictly weaker,
everything after no stronger — ties keep the earlier card); the empty list
gives null. -/
theorem C8_findWinningCard_first_max (pcs : List (Card × String)) :
    (pcs = [] → findWinningCard pcs = none) ∧
    (pcs ≠ [] → ∃ w l1 l2, findWinningCard pcs = some w ∧ pcs = l1 ++ w :: l2 ∧
      (∀ x ∈ l1, getCardPower x.1 < getCardPower w.1) ∧
      (∀ x ∈ l2, getCardPower x.1 ≤ getCardPower w.1)) := by
  cases pcs with
  | nil => exact ⟨fun _ => rfl, fun h => absurd rfl h⟩
  | cons cHead rest =>
      refine ⟨fun h => by simp at h, fun _ => ?_⟩
      rcases foldl_pickWinner_split rest cHead with ⟨l1, l2, heq, hl1, hl2⟩
      exact ⟨rest.foldl pickWinner cHead, l1, l2, rfl, heq, hl1, hl2⟩

/-- C8 witness: among ace then two threes, the first three (played second)
wins: the ace before it is weaker, the later three ties and does not
displace it. -/
theorem C8_witness :
    ∃ w l1 l2, findWinningCard c8cards = some w ∧ c8cards = l1 ++ w :: l2 ∧
      (∀ x ∈ l1, getCardPower x.1 < getCardPower w.1) ∧
      (∀ x ∈ l2, getCardPower x.1 ≤ getCardPower w.1) :=
  (C8_findWinningCard_first_max c8cards).2 (by decide)

/-- C5 (code bug): `validateGameConfig` accepts the bridge preset (french
deck, 4 × 13 = 52 ≤ 52), but `createDeck 'french'` — despite its "52 cards -
all ranks" comment — produces only 40 cards (FRENCH_RANKS lists the same ten
ranks as the spanish deck), failing the deck module's own `validateDeck`;
dealing 13 cards each to 4 players from it silently gives every player only
10 cards. -/
theorem C5_french_validation_gap :
    (validateGameConfig BRIDGE_STYLE_CONFIG).isValid = true ∧
    (createDeck DeckType.french).length = 40 ∧
    validateDeck (createDeck DeckType.french) DeckType.french = false ∧
    ((dealCards (fun i => i) (createDeck DeckType.french)
        BRIDGE_STYLE_CONFIG.maxPlayers BRIDGE_STYLE_CONFIG.handSize).1.all
      fun h => h.length == 10) = true ∧
    ¬ (((dealCards (fun i => i) (createDeck DeckType.french)
        BRIDGE_STYLE_CONFIG.maxPlayers BRIDGE_STYLE_CONFIG.handSize).1.all
      fun h => h.length == BRIDGE_STYLE_CONFIG.handSize) = true) := by
  exact ⟨by decide, by decide, by decide, by decide, by decide⟩

/-- C9: with a valid minPlayers-1 configuration, the sole player joins,
readies and starts the game (phase PLAYING); LEAVE_GAME then removes the
last player and ends the game, where the winner computation (`[].reduce`
with no seed) throws a non-GameError.  `processAction` catches it and emits
game_error UNKNOWN, but the partial mutation persists: the player is
removed, phase is GAME_END, no game_ended event was emitted, `updatedAt`
is unstamped, and the state differs from the pre-call state. -/
theorem C9_leave_last_player_partial_mutation :
    (validateGameConfig soloConfig).isValid = true ∧
    c9s3.phase = GamePhase.PLAYING ∧ c9s3.players.length = 1 ∧
    c9left.1.phase = GamePhase.GAME_END ∧ c9left.1.players = [] ∧
    c9left.2 = [mkEvent "player_left" (EventPayload.playerLeft "p1") 4 none,
                mkUnknownErrorEvent 4] ∧
    c9left.1.updatedAt = c9s3.updatedAt ∧ ¬ c9left.1 = c9s3 := by
  exact ⟨by decide, by decide, by decide, by decide, by decide, by decide, by decide,
    by decide⟩

end Truco
